import Mathlib

/-!
# Verification of the QSS parser (qss_parser.py)

A shallow embedding of the QSS stylesheet parser: the variable store,
selector toolkit, syntax checker, block state machine, rule store and
style matching engine, together with theorems settling the specification
claims.  Python strings are modelled as Lean `String`s (lists of
characters); Python dicts that are only read through `get`/`in` and
written through item assignment are modelled as association lists with
first-match lookup and update-in-place-else-append insertion, which
reproduces insertion-order iteration.  Python's `\w` character class is
modelled by its ASCII meaning (letters, digits, underscore); none of the
claims exercises non-ASCII word characters.
-/

namespace QSS

/-- Characters treated as whitespace by Python's `str.strip()`. -/
def isPyWs (c : Char) : Bool :=
  c = ' ' || c = '\t' || c = '\n' || c = '\x0b' || c = '\x0c' || c = '\r'

/-- `str.strip()` on a character list. -/
def pyStripList (s : List Char) : List Char :=
  ((s.dropWhile isPyWs).reverse.dropWhile isPyWs).reverse

/-- Python `str.strip()`. -/
def pyStrip (s : String) : String := ⟨pyStripList s.data⟩

/-- Python `str.rstrip(";")`. -/
def pyRstripSemi (s : String) : String :=
  ⟨(s.data.reverse.dropWhile (· = ';')).reverse⟩

/-- Python `str.lstrip()` would not be needed; `strip` is. -/
def splitlinesAux : List Char → List Char → List String
  | [], acc => if acc.isEmpty then [] else [⟨acc.reverse⟩]
  | '\r' :: '\n' :: rest, acc => (⟨acc.reverse⟩ : String) :: splitlinesAux rest []
  | '\n' :: rest, acc => (⟨acc.reverse⟩ : String) :: splitlinesAux rest []
  | '\r' :: rest, acc => (⟨acc.reverse⟩ : String) :: splitlinesAux rest []
  | c :: rest, acc => splitlinesAux rest (c :: acc)

/-- Python `str.splitlines()` restricted to the line breaks `\n`, `\r\n`, `\r`. -/
def pySplitlines (s : String) : List String := splitlinesAux s.data []

/-- Python `str.split(sep)` (non-empty separator).  Gas drives the scan;
each separator hit consumes `sep.length ≥ 1` characters, so `s.length`
steps suffice. -/
def splitOnListGas (sep : List Char) : Nat → List Char → List Char → List String
  | 0, acc, s => [⟨acc.reverse ++ s⟩]
  | _ + 1, acc, [] => [(⟨acc.reverse⟩ : String)]
  | gas + 1, acc, c :: rest =>
    if sep.isPrefixOf (c :: rest) then
      (⟨acc.reverse⟩ : String) :: splitOnListGas sep gas [] ((c :: rest).drop sep.length)
    else splitOnListGas sep gas (c :: acc) rest

def pySplitOn (s sep : String) : List String :=
  splitOnListGas sep.data s.data.length [] s.data

/-- Python `str.startswith` / `str.endswith`. -/
def pyStartsWith (s pre : String) : Bool := pre.data.isPrefixOf s.data

def pyEndsWith (s suf : String) : Bool := suf.data.reverse.isPrefixOf s.data.reverse

/-- Python `s[:-1]`. -/
def pyDropLast (s : String) : String := ⟨s.data.dropLast⟩

/-- Python `str.split(sep, 1)`. -/
def pySplit1 (s sep : String) : List String :=
  match pySplitOn s sep with
  | [] => [s]
  | [x] => [x]
  | x :: rest => [x, String.intercalate sep rest]

/-- Python's `needle in hay` substring test. -/
def containsSub (hay needle : String) : Bool :=
  go hay.data
where
  go : List Char → Bool
    | [] => needle.data.isEmpty
    | l@(_ :: rest) => needle.data.isPrefixOf l || go rest

/-- ASCII reading of Python's `\w` character class. -/
def isWordChar (c : Char) : Bool := c.isAlphanum || c = '_'

/-- The character class `[\w-]` used in variable names. -/
def isWordOrDash (c : Char) : Bool := isWordChar c || c = '-'

/-!
## VariableManager

`Constants.VARIABLE_PATTERN = r"var\((--[\w-]+)\)"`.  The matcher below
reproduces the regex: the literal `var(--`, a non-empty greedy run of
`[\w-]` characters, then `)`.  Since `)` is not in `[\w-]`, the greedy
run never needs to backtrack.
-/

/-- The name run and closing parenthesis of the variable pattern: a
non-empty greedy `[\w-]+` run followed by `)`. -/
def matchVarTail (rest : List Char) : Option (String × List Char) :=
  if (rest.takeWhile isWordOrDash).isEmpty then none
  else
    match rest.dropWhile isWordOrDash with
    | ')' :: tail => some (⟨'-' :: '-' :: rest.takeWhile isWordOrDash⟩, tail)
    | _ => none

/-- Try to match `var\((--[\w-]+)\)` at the head of the list.  Returns the
captured group (including the `--`) and the remainder after the match. -/
def matchVarAt : List Char → Option (String × List Char)
  | c1 :: c2 :: c3 :: c4 :: c5 :: c6 :: rest =>
    if c1 = 'v' ∧ c2 = 'a' ∧ c3 = 'r' ∧ c4 = '(' ∧ c5 = '-' ∧ c6 = '-' then
      matchVarTail rest
    else none
  | _ => none

/-- The first match of the variable pattern in a character list:
`(text before the match, captured name, text after the match)`. -/
def findVar : List Char → Option (List Char × String × List Char)
  | [] => none
  | c :: rest =>
    match matchVarAt (c :: rest) with
    | some (name, tail) => some ([], name, tail)
    | none =>
      match findVar rest with
      | some (pre, name, tail) => some (c :: pre, name, tail)
      | none => none

/-- `re.finditer(VARIABLE_PATTERN, value)` scanning with explicit step gas.
The regex engine advances past each match (matches are non-overlapping) and
by one character on failure, so `s.length` steps always suffice
(`findAllVarsGas_eq`). -/
def findAllVarsGas : Nat → List Char → List String
  | 0, _ => []
  | gas + 1, s =>
    match s with
    | [] => []
    | c :: rest =>
      match matchVarAt (c :: rest) with
      | some (name, tail) => name :: findAllVarsGas gas tail
      | none => findAllVarsGas gas rest

/-- All captured groups of `re.finditer(VARIABLE_PATTERN, value)` in order,
duplicates kept. -/
def findAllVars (s : List Char) : List String := findAllVarsGas s.length s

/-- The full matched text `var(--name)` reconstructed from the captured group
(`match.group(0)` where the group already includes the leading `--`). -/
def varMatchText (name : String) : String := "var(" ++ name ++ ")"

/-- Dict lookup `d.get(k)` / `k in d`. -/
def dictFind (m : List (String × String)) (k : String) : Option String :=
  (m.find? (fun p => p.1 = k)).map (·.2)

/-- Dict item assignment `d[k] = v`: overwrite in place, else append. -/
def dictInsert (m : List (String × String)) (k v : String) : List (String × String) :=
  if m.any (fun p => p.1 = k) then
    m.map (fun p => if p.1 = k then (k, v) else p)
  else m ++ [(k, v)]

/-- The circular-reference warning emitted by `replace_var`. -/
def circularMsg (name : String) : String :=
  "Circular variable reference detected: " ++ name

/-- One level of `re.sub(VARIABLE_PATTERN, replace_var, s)` with the mutable
`visited` set and `errors` list made explicit.  `replace_var` leaves a
circular or undefined occurrence unexpanded; a defined name is expanded by
`expandNested` (the nested `re.sub` on the stored value, with the name added
to `visited` for the duration of that nested substitution).  The `gas`
parameter only drives the left-to-right scan; `s.length` steps always
suffice because each match consumes at least one character
(`scanSub_gas_eq`). -/
def scanSub (vars : List (String × String))
    (expandNested : String → List String → List Char × List String)
    (visited : List String) : Nat → List Char → List Char × List String
  | 0, s => (s, [])
  | gas + 1, s =>
    match findVar s with
    | none => (s, [])
    | some (pre, name, tail) =>
      if name ∈ visited then
        let r := scanSub vars expandNested visited gas tail
        (pre ++ (varMatchText name).data ++ r.1, circularMsg name :: r.2)
      else
        match dictFind vars name with
        | none =>
          let r := scanSub vars expandNested visited gas tail
          (pre ++ (varMatchText name).data ++ r.1, r.2)
        | some value =>
          let inner := expandNested value (name :: visited)
          let r := scanSub vars expandNested visited gas tail
          (pre ++ inner.1 ++ r.1, inner.2 ++ r.2)

/-- `replace_var`'s recursive substitution, structured by nesting depth:
level `fuel + 1` scans the string, expanding each defined unvisited name at
level `fuel`.  Every nested call adds a table key to `visited`, so any
`fuel` exceeding the number of unvisited table keys computes the same
result (`substDepth_fuel_eq`); `resolve_variable` runs it with
`vars.length + 1`. -/
def substDepth (vars : List (String × String)) :
    Nat → List String → String → List Char × List String
  | 0, _, s => (s.data, [])
  | fuel + 1, visited, s =>
    scanSub vars (fun v vis => substDepth vars fuel vis v) visited s.data.length s.data

/-- `VariableManager.resolve_variable`.  After the top-level substitution
Python's `visited` set is empty again (every `visited.add` is paired with
a `visited.remove` on the same call path), so the final
`match.group(1) not in visited` test always succeeds and the undefined
scan reduces to a table-absence filter over the original input. -/
def resolve_variable (vars : List (String × String)) (value : String) :
    String × Option String :=
  let r := substDepth vars (vars.length + 1) [] value
  let undefined_vars := (findAllVars value.data).filter (fun n => dictFind vars n = none)
  let error : Option String :=
    match r.2 with
    | e :: _ => some e
    | [] =>
      match undefined_vars with
      | [] => none
      | _ => some ("Undefined variables: " ++ String.intercalate ", " undefined_vars)
  (⟨r.1⟩, error)

/-- `VariableManager.parse_variables`: the block is split on `;`, each piece
is validated and either defines a binding or yields an error.  Returns the
updated table, the error list, and the `(name, value)` pairs reported to
`on_variable_defined` in order. -/
def parse_variables (vars : List (String × String)) (block : String)
    (startLine : Nat) :
    List (String × String) × List String × List (String × String) :=
  let lines := pySplitOn block ";"
  let step := fun (acc : List (String × String) × List String × List (String × String) × Nat)
      (line0 : String) =>
    let (m, errs, defined, i) := acc
    let line := pyStrip line0
    if line = "" then (m, errs, defined, i + 1)
    else if ¬ pyStartsWith line "--" then
      (m, errs ++ ["Invalid variable name on line " ++ toString i ++
        ": Must start with '--': " ++ line], defined, i + 1)
    else
      let parts := pySplit1 line ":"
      match parts with
      | [p0, p1] =>
        if pyStrip p0 = "" ∨ pyStrip p1 = "" then
          (m, errs ++ ["Malformed variable declaration on line " ++ toString i ++
            ": " ++ line], defined, i + 1)
        else
          let name := pyStrip p0
          let value := pyStrip p1
          (dictInsert m name value, errs, defined ++ [(name, value)], i + 1)
      | _ =>
        (m, errs ++ ["Malformed variable declaration on line " ++ toString i ++
          ": " ++ line], defined, i + 1)
  let r := lines.foldl step (vars, [], [], startLine)
  (r.1, r.2.1, r.2.2.1)

/-!
## SelectorUtils: attribute extraction

`Constants.ATTRIBUTE_PATTERN =
r'\[\w+(?:(?:~|=|\|=|\^=|\$=|\*=)(?:"[^"]*"|[^\s"\]]*))?[^[]*\]'`.
A match is `[`, a non-empty `\w+` name, optionally an operator with a
quoted or bare value, then the greedy `[^[]*\]` which extends to the last
`]` before the next `[` (or end of input).  The alternation is resolved
first-come (`~` before `|=` etc.); backtracking only arises between the
quoted-value reading, the empty bare value, and skipping the optional
group, tried in that order.
-/

/-- Split a list around its last `]`: `(before, after)`. -/
def splitAtLastRB : List Char → Option (List Char × List Char)
  | [] => none
  | c :: rest =>
    match splitAtLastRB rest with
    | some (a, b) => some (c :: a, b)
    | none => if c = ']' then some ([], rest) else none

/-- `[^[]*\]` from the current position: consume up to and including the
last `]` in the maximal `[`-free prefix.  Returns the consumed segment
(ending in `]`) and the remainder. -/
def attrTail (l : List Char) : Option (List Char × List Char) :=
  let run := l.takeWhile (fun c => ¬ c = '[')
  let rest := l.drop run.length
  match splitAtLastRB run with
  | none => none
  | some (a, b) => some (a ++ [']'], b ++ rest)

/-- The operator alternation `(?:~|=|\|=|\^=|\$=|\*=)`, tried in order.
`~` alone matches before `~=` could (there is no `~=` alternative). -/
def opAt : List Char → Option (List Char × List Char)
  | '~' :: rest => some (['~'], rest)
  | '=' :: rest => some (['='], rest)
  | '|' :: '=' :: rest => some (['|', '='], rest)
  | '^' :: '=' :: rest => some (['^', '='], rest)
  | '$' :: '=' :: rest => some (['$', '='], rest)
  | '*' :: '=' :: rest => some (['*', '='], rest)
  | _ => none

/-- Try to match the attribute pattern at the head of the list.  Returns
the matched text and the remainder. -/
def matchAttrAt : List Char → Option (List Char × List Char)
  | '[' :: rest =>
    let name := rest.takeWhile isWordChar
    if name.isEmpty then none
    else
      let afterName := rest.drop name.length
      let tryTail := fun (consumed tail : List Char) =>
        match attrTail tail with
        | some (seg, rem) => some ('[' :: (name ++ consumed ++ seg), rem)
        | none => none
      let result :=
        match opAt afterName with
        | some (op, afterOp) =>
          match afterOp with
          | '"' :: vrest =>
            let q := vrest.takeWhile (fun c => ¬ c = '"')
            (match vrest.drop q.length with
             | '"' :: afterQ =>
               (tryTail (op ++ '"' :: (q ++ ['"'])) afterQ).orElse
                 (fun _ => (tryTail op afterOp).orElse (fun _ => tryTail [] afterName))
             | _ =>
               (tryTail op afterOp).orElse (fun _ => tryTail [] afterName))
          | _ =>
            let v := afterOp.takeWhile (fun c => ¬ isPyWs c && ¬ c = '"' && ¬ c = ']')
            (tryTail (op ++ v) (afterOp.drop v.length)).orElse
              (fun _ => tryTail [] afterName)
        | none => tryTail [] afterName
      result
  | _ => none

/-- `re.findall(ATTRIBUTE_PATTERN, selector)` with explicit step gas:
advance past each match, by one character on failure; every match consumes
at least one character, so `s.length` steps suffice. -/
def extractAttrsGas : Nat → List Char → List String
  | 0, _ => []
  | _ + 1, [] => []
  | gas + 1, c :: rest =>
    match matchAttrAt (c :: rest) with
    | some (txt, rem) => (⟨txt⟩ : String) :: extractAttrsGas gas rem
    | none => extractAttrsGas gas rest

/-- `SelectorUtils.extract_attributes`. -/
def extract_attributes (selector : String) : List String :=
  extractAttrsGas selector.data.length selector.data

/-!
## SelectorUtils: normalization and the complete-rule pattern
-/

/-- `re.sub(r"\s*>\s*", " > ", s)`: each `>` together with the whitespace
runs around it becomes `" > "`.  Gas-driven scan; every match consumes at
least the `>`, so `s.length` steps suffice. -/
def subGtGas : Nat → List Char → List Char
  | 0, s => s
  | _ + 1, [] => []
  | gas + 1, c :: rest =>
    let ws := (c :: rest).takeWhile isPyWs
    match (c :: rest).drop ws.length with
    | '>' :: after =>
      let ws2 := after.takeWhile isPyWs
      ' ' :: '>' :: ' ' :: subGtGas gas (after.drop ws2.length)
    | _ => c :: subGtGas gas rest

/-- Python `str.replace(old, new)`: left-to-right, non-overlapping.  Gas
drives the scan; `old` is never empty at the call sites, so each step
consumes at least one character and `s.length` steps suffice. -/
def strReplaceGas (old new : List Char) : Nat → List Char → List Char
  | 0, s => s
  | _ + 1, [] => []
  | gas + 1, c :: rest =>
    if old.isPrefixOf (c :: rest) then
      new ++ strReplaceGas old new gas ((c :: rest).drop old.length)
    else c :: strReplaceGas old new gas rest

def pyReplace (s old new : String) : String :=
  ⟨strReplaceGas old.data new.data s.data.length s.data⟩

/-- `re.sub(r"\s+", " ", s)`: collapse whitespace runs to one space. -/
def collapseWsAux : Bool → List Char → List Char
  | _, [] => []
  | inWs, c :: rest =>
    if isPyWs c then
      if inWs then collapseWsAux true rest else ' ' :: collapseWsAux true rest
    else c :: collapseWsAux false rest

def collapseWs (l : List Char) : List Char := collapseWsAux false l

/-- The comma-split-strip-filter idiom
`[s.strip() for s in selector.split(",") if s.strip()]`. -/
def splitCommaStrip (selector : String) : List String :=
  ((pySplitOn selector ",").map pyStrip).filter (fun s => ¬ s = "")

/-- `SelectorUtils.normalize_selector`. -/
def normalize_selector (selector : String) : String :=
  let selectors := splitCommaStrip selector
  let normalized := selectors.map (fun sel =>
    let attributes := extract_attributes sel
    let placeholders := (List.range attributes.length).map
      (fun i => "__ATTR_" ++ toString i ++ "__")
    let pairs := placeholders.zip attributes
    let temp1 := pairs.foldl (fun (acc : String) pa => pyReplace acc pa.2 pa.1) sel
    let temp2 : String := ⟨subGtGas temp1.data.length temp1.data⟩
    let temp3 : String := pyStrip ⟨collapseWs temp2.data⟩
    pairs.foldl (fun (acc : String) pa => pyReplace acc pa.1 pa.2) temp3)
  String.intercalate ", " normalized

/-- Attempt the body of `COMPLETE_RULE_PATTERN`
(`^\s*[^/][^{}]*\s*\{[^}]*\}\s*$`, and its group-capturing variant used by
`_process_complete_rule`) at a fixed start.  The `[^{}]*` run extends to
the first brace, which must be `{`; `[^}]*` extends to the first `}`; the
rest must be whitespace.  Returns the two capture groups
`(selector, properties)`. -/
def crMatchAt : List Char → Option (List Char × List Char)
  | [] => none
  | c :: r =>
    if c = '/' then none
    else
      let mid := r.takeWhile (fun d => ¬ d = '{' && ¬ d = '}')
      match r.drop mid.length with
      | '{' :: r2 =>
        let q := r2.takeWhile (fun d => ¬ d = '}')
        match r2.drop q.length with
        | '}' :: t => if t.all isPyWs then some (c :: mid, q) else none
        | _ => none
      | _ => none

/-- The leading `\s*` is greedy: the longest whitespace prefix is tried
first, backing off one character at a time (`[^/]` may itself consume a
whitespace character). -/
def crSearch (l : List Char) : Nat → Option (List Char × List Char)
  | 0 => crMatchAt l
  | k + 1 =>
    match crMatchAt (l.drop (k + 1)) with
    | some g => some g
    | none => crSearch l k

/-- `re.match` of the complete-rule pattern, returning the capture groups. -/
def crGroups (l : List Char) : Option (List Char × List Char) :=
  crSearch l (l.takeWhile isPyWs).length

/-- `SelectorUtils.is_complete_rule`. -/
def is_complete_rule (line : String) : Bool := (crGroups line.data).isSome

/-!
## Core data structures

`QSSRule`'s derived fields (`object_name`, `class_name`, `attributes`,
`pseudo_states`, computed by `SelectorUtils.parse_selector` in the
constructor) are not read by any operation modelled here — rule storage,
merging, rendering and style matching work on `selector`, `properties`
and `original` only — so the embedding omits them.
-/

structure QSSProperty where
  name : String
  value : String
deriving DecidableEq, Repr

/-- The `QSSProperty` constructor normalizes both fields with `strip()`. -/
def QSSProperty.new (name value : String) : QSSProperty :=
  ⟨pyStrip name, pyStrip value⟩

structure QSSRule where
  selector : String
  properties : List QSSProperty
  original : String
deriving DecidableEq, Repr

/-- The `QSSRule` constructor strips the selector; `original` defaults to
the empty string. -/
def QSSRule.new (selector : String) (original : String := "") : QSSRule :=
  { selector := pyStrip selector, properties := [], original := original }

/-- `QSSFormatter.format_rule`. -/
def format_rule (selector : String) (properties : List QSSProperty) : String :=
  let props := String.intercalate "\n"
    (properties.map (fun p => "    " ++ p.name ++ ": " ++ p.value ++ ";"))
  selector ++ " \x7b\n" ++ props ++ "\n\x7d\n"

/-- `QSSRule.clone_without_pseudo_elements`: the base selector is the text
before the first `::`; the clone's constructor strips it, but the cached
rendering is produced from the unstripped text. -/
def QSSRule.clone_without_pseudo_elements (r : QSSRule) : QSSRule :=
  let base_selector := (pySplitOn r.selector "::").headD r.selector
  { selector := pyStrip base_selector,
    properties := r.properties,
    original := format_rule base_selector r.properties }

/-- The shared diagnostic shape `f"Error on line {n}: {rest}"`. -/
def mkErr (n : Nat) (rest : String) : String :=
  "Error on line " ++ toString n ++ ": " ++ rest

/-- `^[a-zA-Z][a-zA-Z0-9-]*$` (shared by the property processor and the
syntax checker). -/
def is_valid_property_name (name : String) : Bool :=
  match name.data with
  | [] => false
  | c :: rest => c.isAlpha && rest.all (fun d => d.isAlphanum || d = '-')

/-- `DefaultPropertyProcessor.process_property`: returns the updated rule
list and the errors dispatched through the error handler.  Logged-only
skips (malformed line, empty name or value, invalid name) dispatch
nothing. -/
def process_property (line0 : String) (rules : List QSSRule)
    (vars : List (String × String)) (lineNum : Nat) :
    List QSSRule × List String :=
  let line := pyStrip line0
  if rules.isEmpty || line = "" then (rules, [])
  else
    match pySplit1 line ":" with
    | [p0, p1] =>
      let name := pyStrip p0
      let value := pyStrip (pyRstripSemi (pyStrip p1))
      if name = "" || value = "" then (rules, [])
      else if ¬ is_valid_property_name name then (rules, [])
      else
        let rv := resolve_variable vars value
        let errs :=
          match rv.2 with
          | some e => [mkErr lineNum e]
          | none => []
        let normalized_line := name ++ ": " ++ rv.1 ++ ";"
        (rules.map (fun r =>
          { r with
            original := r.original ++ "    " ++ normalized_line ++ "\n",
            properties := r.properties ++ [QSSProperty.new name rv.1] }), errs)
    | _ => (rules, [])

/-!
## Parser state, events and the rule store

The parser's mutable pieces: `ParserState` (with the `property_lines`
attribute that `SelectorPlugin` creates at rule opening), the
`VariableManager` table, and the rule store.  Python keeps the store
redundantly as `QSSParser._rule_map` (dict by selector) plus
`ParserState.rules` (insertion-ordered list of the same objects); entries
are inserted into both exactly when the selector is absent from the map
and merges mutate the shared object, so a single insertion-ordered list
with first-match lookup models both.  Events other than `rule_added` and
`parse_completed` are recorded (`error_found`, `invalid_rule_skipped`,
`variable_defined`); no claim observes the other two.
-/

structure ParserState where
  rules : List QSSRule := []
  buffer : String := ""
  in_comment : Bool := false
  in_rule : Bool := false
  in_variables : Bool := false
  current_selectors : List String := []
  original_selector : Option String := none
  current_rules : List QSSRule := []
  variable_buffer : String := ""
  current_line : Nat := 1
  property_lines : List String := []
deriving Repr

structure ParserModel where
  state : ParserState := {}
  varTable : List (String × String) := []
  errors : List String := []
  invalid_rules : List String := []
  variables_defined : List (String × String) := []
deriving Repr

/-- `QSSParser.dispatch_error`: record the `error_found` event. -/
def dispatch_error (m : ParserModel) (e : String) : ParserModel :=
  { m with errors := m.errors ++ [e] }

/-- Store lookup `self._rule_map.get(rule.selector)`. -/
def storeFind (rules : List QSSRule) (sel : String) : Option QSSRule :=
  rules.find? (fun r => r.selector = sel)

/-- In-place mutation of the stored rule with the given selector. -/
def storeUpdate (rules : List QSSRule) (sel : String) (f : QSSRule → QSSRule) :
    List QSSRule :=
  rules.map (fun r => if r.selector = sel then f r else r)

/-- `{p.name: p for p in props}` built incrementally: a dict keyed by
property name keeps the first-insertion position and the last value. -/
def propUpsert (m : List QSSProperty) (p : QSSProperty) : List QSSProperty :=
  if m.any (fun q => q.name = p.name) then
    m.map (fun q => if q.name = p.name then p else q)
  else m ++ [p]

/-- The name-wise merge in `handle_rule`: `prop_map` from the existing
properties, then incoming properties overwrite / append. -/
def mergeProps (existing incoming : List QSSProperty) : List QSSProperty :=
  incoming.foldl propUpsert (existing.foldl propUpsert [])

/-- One merge-or-insert step of `QSSParser.handle_rule` on the store. -/
def storeMerge (rules : List QSSRule) (incoming : QSSRule) : List QSSRule :=
  match storeFind rules incoming.selector with
  | some existing =>
    let merged := mergeProps existing.properties incoming.properties
    storeUpdate rules incoming.selector (fun r =>
      { r with properties := merged,
               original := format_rule existing.selector merged })
  | none => rules ++ [incoming]

/-- `QSSParser.handle_rule` on the store: merge the incoming rule, then,
when its selector has a `:` but no `::` and no comma, merge the derived
pseudo-stripped base clone through the same path. -/
def applyRule (rules : List QSSRule) (rule : QSSRule) : List QSSRule :=
  let rules1 := storeMerge rules rule
  if containsSub rule.selector ":" && ¬ containsSub rule.selector "::" &&
      ¬ containsSub rule.selector "," then
    storeMerge rules1 rule.clone_without_pseudo_elements
  else rules1

def handle_rule (m : ParserModel) (rule : QSSRule) : ParserModel :=
  { m with state := { m.state with rules := applyRule m.state.rules rule } }

/-!
## Plugins

Dispatch order is `VariablePlugin`, `SelectorPlugin`, `PropertyPlugin`;
the first plugin returning `true` consumes the line.
-/

/-- `VariablePlugin.process_line`. -/
def variablePluginProcess (line0 : String) (m : ParserModel) : ParserModel × Bool :=
  let line := pyStrip line0
  if m.state.in_comment then
    if containsSub line "*/" then
      ({ m with state := { m.state with in_comment := false } }, true)
    else (m, true)
  else if pyStartsWith line "/*" then
    ({ m with state := { m.state with in_comment := true } }, true)
  else if line = "@variables \x7b" && ¬ m.state.in_rule then
    ({ m with state := { m.state with in_variables := true, variable_buffer := "" } }, true)
  else if m.state.in_variables then
    if line = "\x7d" then
      let r := parse_variables m.varTable m.state.variable_buffer m.state.current_line
      ({ m with
          varTable := r.1,
          errors := m.errors ++ r.2.1,
          variables_defined := m.variables_defined ++ r.2.2,
          state := { m.state with in_variables := false, variable_buffer := "" } }, true)
    else
      ({ m with state := { m.state with
          variable_buffer := pyStrip (m.state.variable_buffer ++ " " ++ line) } }, true)
  else (m, false)

/-- Property processing shared by the complete-rule path and the `}` path:
run `process_property` against `current_rules` and record dispatched
errors. -/
def runPropertyProcessor (m : ParserModel) (line : String) : ParserModel :=
  let r := process_property line m.state.current_rules m.varTable m.state.current_line
  { m with state := { m.state with current_rules := r.1 }, errors := m.errors ++ r.2 }

/-- `SelectorPlugin._process_complete_rule`. -/
def processCompleteRule (line : String) (m : ParserModel) : ParserModel :=
  match crGroups line.data with
  | none =>
    dispatch_error m (mkErr m.state.current_line ("Malformed rule: " ++ line))
  | some (selGroup, propGroup) =>
    let selector : String := ⟨selGroup⟩
    let properties : String := ⟨propGroup⟩
    let normalized_selector := normalize_selector (pyStrip selector)
    let selectors := splitCommaStrip normalized_selector
    if selectors.isEmpty then m
    else
      let m := { m with state := { m.state with
          current_selectors := selectors,
          original_selector := some normalized_selector,
          current_rules := selectors.map (fun sel => QSSRule.new sel (sel ++ " \x7b\n")) } }
      let m :=
        if ¬ (pyStrip properties = "") then
          (pySplitOn properties ";").foldl (fun m part0 =>
            let part := pyStrip part0
            if ¬ (part = "") then runPropertyProcessor m (part ++ ";") else m) m
        else m
      let m := m.state.current_rules.foldl
        (fun m r => handle_rule m { r with original := r.original ++ "\x7d\n" }) m
      { m with state := { m.state with
          current_rules := [], current_selectors := [], original_selector := none } }

/-- The `}`-closing branch of `SelectorPlugin.process_line`: flush
`property_lines` (all but the last must end in `;`; the last is accepted
with `name: value` shape), then finalize and store every pending rule. -/
def closeRule (m : ParserModel) : ParserModel :=
  let m :=
    match m.state.property_lines with
    | [] => m
    | pls =>
      let m := pls.dropLast.foldl (fun m prop_line =>
        if ¬ pyEndsWith (pyStrip prop_line) ";" then
          dispatch_error m (mkErr m.state.current_line ("Property missing ';': " ++ prop_line))
        else runPropertyProcessor m prop_line) m
      let last_prop := pyStrip (pls.getLastD "")
      if ¬ (last_prop = "") then
        match pySplit1 last_prop ":" with
        | [p0, p1] =>
          if pyStrip p0 = "" || pyStrip p1 = "" then
            dispatch_error m (mkErr m.state.current_line ("Invalid last property: " ++ last_prop))
          else runPropertyProcessor m (last_prop ++ ";")
        | _ =>
          dispatch_error m (mkErr m.state.current_line ("Invalid last property: " ++ last_prop))
      else m
  let m := m.state.current_rules.foldl
    (fun m r => handle_rule m { r with original := r.original ++ "\x7d\n" }) m
  { m with state := { m.state with
      current_rules := [], in_rule := false, current_selectors := [],
      original_selector := none, property_lines := [] } }

/-- `SelectorPlugin.process_line`. -/
def selectorPluginProcess (line0 : String) (m : ParserModel) : ParserModel × Bool :=
  let line := pyStrip line0
  if line = "" || m.state.in_comment || m.state.in_variables then (m, false)
  else if is_complete_rule line then (processCompleteRule line m, true)
  else if pyEndsWith line "," then
    let selector_part := pyStrip (pyDropLast line)
    if ¬ (selector_part = "") then
      let selectors := splitCommaStrip (normalize_selector selector_part)
      ({ m with state := { m.state with
          current_selectors := m.state.current_selectors ++ selectors } }, true)
    else (m, true)
  else if pyEndsWith line "\x7b" && ¬ m.state.in_rule then
    let m := { m with state := { m.state with buffer := "" } }
    let selector_part := pyStrip (pyDropLast line)
    let m :=
      if ¬ (selector_part = "") then
        { m with state := { m.state with
            current_selectors := m.state.current_selectors ++
              splitCommaStrip (normalize_selector selector_part) } }
      else m
    if m.state.current_selectors.isEmpty then (m, true)
    else
      ({ m with state := { m.state with
          original_selector := some (String.intercalate ", " m.state.current_selectors),
          current_rules := m.state.current_selectors.map
            (fun sel => QSSRule.new sel (sel ++ " \x7b\n")),
          in_rule := true,
          current_selectors := [],
          property_lines := [] } }, true)
  else if line = "\x7d" && m.state.in_rule then
    (closeRule m, true)
  else (m, false)

/-- `PropertyPlugin.process_line`: inside a rule every line is buffered
into `state.property_lines`. -/
def propertyPluginProcess (line0 : String) (m : ParserModel) : ParserModel × Bool :=
  let line := pyStrip line0
  if ¬ m.state.in_rule || m.state.in_comment || m.state.in_variables then (m, false)
  else
    ({ m with state := { m.state with
        property_lines := m.state.property_lines ++ [line] } }, true)

/-- `QSSParser._process_line`: offer the line to the plugins in order. -/
def processLine (m : ParserModel) (line : String) : ParserModel :=
  let r1 := variablePluginProcess line m
  if r1.2 then r1.1
  else
    let r2 := selectorPluginProcess line r1.1
    if r2.2 then r2.1
    else
      let r3 := propertyPluginProcess line r2.1
      r3.1

/-- `QSSParser.parse`: reset, process each line (incrementing
`current_line` afterwards), then the end-of-input handling: flush a
pending property buffer and variable buffer, and skip a still-open rule
with an `invalid_rule_skipped` event carrying the dangling selector and
the (stripped) property buffer. -/
def parse (text : String) : ParserModel :=
  let m : ParserModel := {}
  let m := (pySplitlines text).foldl (fun m line =>
    let m := processLine m line
    { m with state := { m.state with current_line := m.state.current_line + 1 } }) m
  let m :=
    if ¬ (pyStrip m.state.buffer = "") then runPropertyProcessor m m.state.buffer
    else m
  let m :=
    if ¬ (pyStrip m.state.variable_buffer = "") then
      let r := parse_variables m.varTable m.state.variable_buffer m.state.current_line
      { m with varTable := r.1, errors := m.errors ++ r.2.1 }
    else m
  if m.state.in_rule && ¬ m.state.current_rules.isEmpty then
    let sel := match m.state.original_selector with | some s => s | none => "None"
    let invalid_content := sel ++ " \x7b\n" ++ pyStrip m.state.buffer ++ "\n"
    { m with
        invalid_rules := m.invalid_rules ++ [invalid_content],
        state := { m.state with
          current_rules := [], in_rule := false, current_selectors := [],
          original_selector := none } }
  else m

/-- `QSSParser.to_string`. -/
def to_string (m : ParserModel) : String :=
  String.intercalate "\n" (m.state.rules.map (fun r => format_rule r.selector r.properties))

/-!
## QSSStyleSelector

The widget is the two-capability identity
(`objectName()`, `metaObject().className()`).  `matching_rules` and
`styles` are Python sets of `QSSRule` (equality and hash by selector and
properties); they are modelled as insertion-ordered duplicate-free lists,
and the final `sorted(..., key=lambda r: r.selector)` is a stable
insertion sort on Python's code-point string order, which makes the
rendered output independent of the set iteration order whenever the
selectors are distinct.
-/

structure Widget where
  objectName : String
  className : String

/-- `COMPILED_ATTRIBUTE_PATTERN.sub("", sel)`: delete every attribute
match. -/
def removeAttrsGas : Nat → List Char → List Char
  | 0, s => s
  | _ + 1, [] => []
  | gas + 1, c :: rest =>
    match matchAttrAt (c :: rest) with
    | some (_, rem) => removeAttrsGas gas rem
    | none => c :: removeAttrsGas gas rest

def removeAttrs (s : String) : String := ⟨removeAttrsGas s.data.length s.data⟩

/-- `selector.split("::")[0].split(":")[0].strip()`. -/
def baseOf (s : String) : String :=
  pyStrip ((pySplit1 ((pySplitOn s "::").headD s) ":").headD s)

/-- `re.search(r"[> ]+", s)`. -/
def hasCombinatorChar (s : String) : Bool :=
  s.data.any (fun c => c = '>' || c = ' ')

/-- `[part.strip() for part in re.split(r"[> ]+", s) if part.strip()]`.
Splitting on every single `>`/` ` instead of on maximal runs only adds
empty pieces, which the strip-and-filter removes, so the result matches
the run-based `re.split`. -/
def splitCombParts (s : String) : List String :=
  ((go s.data []).map pyStrip).filter (fun p => ¬ p = "")
where
  go : List Char → List Char → List String
    | [], acc => [⟨acc.reverse⟩]
    | c :: rest, acc =>
      if c = '>' || c = ' ' then (⟨acc.reverse⟩ : String) :: go rest []
      else go rest (c :: acc)

/-- Python `s[1:]`. -/
def pyDropFirst (s : String) : String := ⟨s.data.tail⟩

/-- One branch of `_get_rules_for_selector`'s per-branch match. -/
def branchMatches (sel0 selector object_name class_name base_selector : String) : Bool :=
  let sel := sel0
  if sel = selector then true
  else
    let sel_without_attrs := pyStrip (removeAttrs sel)
    if ¬ hasCombinatorChar sel_without_attrs then
      let part_base := baseOf sel_without_attrs
      if part_base = base_selector then
        if pyStartsWith base_selector "#" && ¬ (pyDropFirst base_selector = object_name) then
          false
        else if ¬ pyStartsWith base_selector "#" && ¬ (base_selector = class_name) then
          false
        else true
      else false
    else
      let sel_parts := splitCombParts sel_without_attrs
      let bad := sel_parts.any (fun part =>
        let part_base := baseOf part
        ¬ (part_base = class_name) && pyStartsWith part_base "#" &&
          ¬ (pyDropFirst part_base = object_name))
      let class_match := sel_parts.any (fun part => baseOf part = class_name)
      class_match && ¬ bad

/-- Set insertion (`QSSRule.__eq__`/`__hash__` compare selector and
properties). -/
def setAdd (l : List QSSRule) (r : QSSRule) : List QSSRule :=
  if l.any (fun x => x.selector = r.selector && x.properties = r.properties) then l
  else l ++ [r]

def setUnion (l add : List QSSRule) : List QSSRule := add.foldl setAdd l

/-- `QSSStyleSelector._get_rules_for_selector`. -/
def get_rules_for_selector (rules : List QSSRule) (selector : String)
    (object_name class_name : String) : List QSSRule :=
  let base_selector := pyStrip (baseOf selector)
  rules.foldl (fun acc rule =>
    let rule_selectors := (pySplitOn rule.selector ",").map pyStrip
    if rule_selectors.any
        (fun sel => branchMatches sel selector object_name class_name base_selector) then
      setAdd acc rule
    else acc) []

/-- Python string `<` (code-point lexicographic). -/
def pyStrLt (a b : String) : Bool := go a.data b.data
where
  go : List Char → List Char → Bool
    | [], [] => false
    | [], _ :: _ => true
    | _ :: _, [] => false
    | c :: cs, d :: ds => if c = d then go cs ds else decide (c < d)

/-- Stable insertion into a selector-sorted list. -/
def insertBySelector (r : QSSRule) : List QSSRule → List QSSRule
  | [] => [r]
  | x :: xs =>
    if pyStrLt r.selector x.selector then r :: x :: xs
    else x :: insertBySelector r xs

/-- `sorted(set, key=lambda r: r.selector)`. -/
def sortBySelector (l : List QSSRule) : List QSSRule :=
  l.foldl (fun acc r => insertBySelector r acc) []

/-- `r.original.rstrip("\n")`. -/
def pyRstripNl (s : String) : String :=
  ⟨(s.data.reverse.dropWhile (· = '\n')).reverse⟩

/-- `QSSStyleSelector.get_styles_for`. -/
def get_styles_for (rules : List QSSRule) (widget : Widget)
    (fallback_class : Option String := none)
    (additional_selectors : Option (List String) := none)
    (include_class_if_object_name : Bool := false) : String :=
  let object_name := widget.objectName
  let class_name := widget.className
  let styles : List QSSRule :=
    if ¬ (object_name = "") then
      let s1 := setUnion []
        (get_rules_for_selector rules ("#" ++ object_name) object_name class_name)
      if include_class_if_object_name then
        setUnion s1 (get_rules_for_selector rules class_name object_name class_name)
      else s1
    else []
  let styles :=
    if object_name = "" || styles.isEmpty then
      setUnion styles (get_rules_for_selector rules class_name object_name class_name)
    else styles
  let styles :=
    match fallback_class with
    | some fc =>
      if ¬ (fc = "") && styles.isEmpty then
        setUnion styles (get_rules_for_selector rules fc object_name class_name)
      else styles
    | none => styles
  let styles :=
    match additional_selectors with
    | some sels =>
      sels.foldl (fun st sel =>
        setUnion st (get_rules_for_selector rules sel object_name class_name)) styles
    | none => styles
  let unique_styles := sortBySelector styles
  String.intercalate "\n" (unique_styles.map (fun r => pyRstripNl r.original))

/-- `QSSParser.get_styles_for` queries the style selector with the
parser's stored rules. -/
def parser_get_styles_for (m : ParserModel) (widget : Widget)
    (fallback_class : Option String := none)
    (additional_selectors : Option (List String) := none)
    (include_class_if_object_name : Bool := false) : String :=
  get_styles_for m.state.rules widget fallback_class additional_selectors
    include_class_if_object_name

/-!
## SelectorUtils.validate_selector_syntax

The three selector-shape regexes:
`PSEUDO_PATTERN = r"(\w+|#[-\w]+|\[.*?\])\s*(:{1,2})\s*(\w+)"`,
`CLASS_ID_PATTERN = r"(\w+)(#[-\w]+)"`,
`COMBINATOR_PATTERN = r"(\w+|#[-\w]+|\[.*?\])([> ]{1,2})(\w+|#[-\w]+|\[.*?\])"`.
The three first-group alternatives are distinguished by their first
character; the `\w+`/`#[-\w]+` runs never profit from backtracking (a
shortened run leaves a word character where none of the possible
followers accepts one), while the lazy `\[.*?\]` yields one candidate
per `]` (not crossing a newline), shortest first.
-/

/-- Candidates for `\[.*?\]` at `'[' :: r`: for each `]` in `r` (up to a
newline), the bracketed text and the remainder, shortest first. -/
def bracketCands (r : List Char) : List (List Char × List Char) :=
  go [] r
where
  go (acc : List Char) : List Char → List (List Char × List Char)
    | [] => []
    | ']' :: rest => (acc.reverse, rest) :: go (']' :: acc) rest
    | '\n' :: _ => []
    | c :: rest => go (c :: acc) rest

/-- Candidates for the group alternation `(\w+|#[-\w]+|\[.*?\])` at the
head of `l`, in backtracking order: `(group text, remainder)`. -/
def groupCands (l : List Char) : List (List Char × List Char) :=
  match l with
  | [] => []
  | '#' :: r =>
    let run := r.takeWhile isWordOrDash
    if run.isEmpty then [] else [('#' :: run, r.drop run.length)]
  | '[' :: r => (bracketCands r).map (fun bc => ('[' :: (bc.1 ++ [']']), bc.2))
  | c :: _ =>
    if isWordChar c then
      let run := l.takeWhile isWordChar
      [(run, l.drop run.length)]
    else []

/-- `Option.orElse` chaining over a candidate list: first success wins. -/
def firstSome {α β : Type} (f : α → Option β) : List α → Option β
  | [] => none
  | x :: xs =>
    match f x with
    | some y => some y
    | none => firstSome f xs

/-- One `PSEUDO_PATTERN` match: `(prefix, colons, pseudo, full, rest)`. -/
structure PseudoMatch where
  prefixGroup : List Char
  colons : List Char
  pseudo : List Char
  full : List Char
  rest : List Char

/-- `\s*(:{1,2})\s*(\w+)` after a chosen first group.  `:{1,2}` is greedy;
when it takes two of three-or-more colons the following `\s*(\w+)` meets a
colon and fails, and retrying with one colon fails the same way, so a
colon run longer than two can never complete a match. -/
def pseudoTail (g : List Char) (after : List Char) : Option PseudoMatch :=
  let ws1 := after.takeWhile isPyWs
  let a1 := after.drop ws1.length
  let colonRun := a1.takeWhile (fun c => c = ':')
  if colonRun.length = 0 ∨ colonRun.length > 2 then none
  else
    let a2 := a1.drop colonRun.length
    let ws2 := a2.takeWhile isPyWs
    let a3 := a2.drop ws2.length
    let run := a3.takeWhile isWordChar
    if run.isEmpty then none
    else
      some { prefixGroup := g, colons := colonRun, pseudo := run,
             full := g ++ ws1 ++ colonRun ++ ws2 ++ run,
             rest := a3.drop run.length }

def pseudoMatchAt (l : List Char) : Option PseudoMatch :=
  firstSome (fun gc => pseudoTail gc.1 gc.2) (groupCands l)

/-- `re.finditer(PSEUDO_PATTERN, sel)`. -/
def pseudoFinditerGas : Nat → List Char → List PseudoMatch
  | 0, _ => []
  | _ + 1, [] => []
  | gas + 1, c :: rest =>
    match pseudoMatchAt (c :: rest) with
    | some pm => pm :: pseudoFinditerGas gas pm.rest
    | none => pseudoFinditerGas gas rest

def pseudoFinditer (s : String) : List PseudoMatch :=
  pseudoFinditerGas s.data.length s.data

/-- `re.search(r"\s+:{1,2}\s*", full_match)`: some whitespace character
immediately followed by a colon. -/
def searchWsColon : List Char → Bool
  | [] => false
  | [_] => false
  | c :: d :: rest => (isPyWs c && d = ':') || searchWsColon (d :: rest)

/-- `re.match(CLASS_ID_PATTERN, part)`: a word run followed by `#` and at
least one `[-\w]` character. -/
def classIdMatch (part : String) : Bool :=
  let run := part.data.takeWhile isWordChar
  if run.isEmpty then false
  else
    match part.data.drop run.length with
    | '#' :: r2 => ¬ (r2.takeWhile isWordOrDash).isEmpty
    | _ => false

/-- `re.split(r"\s+", sel)`: pieces between single whitespace characters;
maximal-run splitting differs only by extra empty pieces, and empty
pieces never match `CLASS_ID_PATTERN`, so the per-character split is
adequate for the one use below. -/
def reSplitWs (s : String) : List String :=
  go s.data []
where
  go : List Char → List Char → List String
    | [], acc => [⟨acc.reverse⟩]
    | c :: rest, acc =>
      if isPyWs c then (⟨acc.reverse⟩ : String) :: go rest []
      else go rest (c :: acc)

/-- One `COMBINATOR_PATTERN` match: `(left, combinator, right, rest)`. -/
structure CombMatch where
  left : List Char
  comb : List Char
  right : List Char
  rest : List Char

/-- `([> ]{1,2})(\w+|#[-\w]+|\[.*?\])` after a chosen left group: two
combinator characters are tried before one, and for each the right-group
candidates in order. -/
def combTail (g : List Char) (after : List Char) : Option CombMatch :=
  let tryComb := fun (comb : List Char) (a2 : List Char) =>
    firstSome (fun gc : List Char × List Char =>
      some { left := g, comb := comb, right := gc.1, rest := gc.2 }) (groupCands a2)
  match after with
  | c1 :: c2 :: rest =>
    if (c1 = '>' || c1 = ' ') && (c2 = '>' || c2 = ' ') then
      match tryComb [c1, c2] rest with
      | some m => some m
      | none => tryComb [c1] (c2 :: rest)
    else if c1 = '>' || c1 = ' ' then tryComb [c1] (c2 :: rest)
    else none
  | [c1] => if c1 = '>' || c1 = ' ' then none else none
  | [] => none

def combMatchAt (l : List Char) : Option CombMatch :=
  firstSome (fun gc => combTail gc.1 gc.2) (groupCands l)

/-- `re.finditer(COMBINATOR_PATTERN, sel)`. -/
def combFinditerGas : Nat → List Char → List CombMatch
  | 0, _ => []
  | _ + 1, [] => []
  | gas + 1, c :: rest =>
    match combMatchAt (c :: rest) with
    | some cm => cm :: combFinditerGas gas cm.rest
    | none => combFinditerGas gas rest

def combFinditer (s : String) : List CombMatch :=
  combFinditerGas s.data.length s.data

/-- `re.match(r"\[\w+(?:~|=|\|=|\^=|\$=|\*=)\]", attr)`: bracket, word
run, operator, then an immediate `]`. -/
def emptyOpAttr (attr : String) : Bool :=
  match attr.data with
  | '[' :: r =>
    let run := r.takeWhile isWordChar
    if run.isEmpty then false
    else
      match opAt (r.drop run.length) with
      | some (_, ']' :: _) => true
      | _ => false
  | _ => false

/-- The duplicate-branch scan: a `seen` set, one diagnostic per repeated
branch occurrence. -/
def dupScan (selectors : List String) (line_num : Nat) : List String :=
  (selectors.foldl (fun (acc : List String × List String) sel =>
    (sel :: acc.1,
     if sel ∈ acc.1 then
       acc.2 ++ [mkErr line_num ("Duplicate selector '" ++ sel ++ "' in comma-separated list")]
     else acc.2)) ([], [])).2

/-- The early-exit diagnostic for pseudo-states inside a comma group. -/
def pseudoCommaMsg (selector : String) : String :=
  "Error: Pseudo-states in comma-separated selectors are not supported. " ++
    "Split into separate rules for " ++ selector

/-- The per-branch checks of `validate_selector_syntax` (attributes,
pseudo spacing, class–id adjacency, combinator shape). -/
def perSelectorChecks (sel : String) (line_num : Nat) : List String :=
  let attrErrs := (extract_attributes sel).flatMap (fun attr =>
    (if ¬ (matchAttrAt attr.data).isSome then
      [mkErr line_num ("Invalid selector: '" ++ sel ++
        "'. Malformed attribute selector '" ++ attr ++ "'")]
     else []) ++
    (if emptyOpAttr attr then
      [mkErr line_num ("Invalid selector: '" ++ sel ++
        "'. Malformed attribute selector '" ++ attr ++ "'")]
     else []))
  let pseudoErrs := (pseudoFinditer sel).flatMap (fun pm =>
    if searchWsColon pm.full then
      let pseudo_type := if pm.colons = [':', ':'] then "pseudo-element" else "pseudo-state"
      [mkErr line_num ("Invalid spacing in selector: '" ++ sel ++
        "'. No space allowed between '" ++ (⟨pm.prefixGroup⟩ : String) ++ "' and '" ++
        (⟨pm.colons⟩ : String) ++ (⟨pm.pseudo⟩ : String) ++ "' (" ++ pseudo_type ++ ")")]
    else [])
  let classIdErrs := (reSplitWs sel).flatMap (fun part =>
    if classIdMatch part then
      [mkErr line_num ("Invalid selector: '" ++ sel ++
        "'. Space required between class and ID in '" ++ part ++ "'")]
    else [])
  let combErrs := (combFinditer sel).flatMap (fun cm =>
    if ¬ (cm.comb = [' ']) && ¬ (cm.comb = ['>']) then
      [mkErr line_num ("Invalid combinator in selector: '" ++ sel ++
        "'. Invalid combinator '" ++ (⟨cm.comb⟩ : String) ++ "' between '" ++
        (⟨cm.left⟩ : String) ++ "' and '" ++ (⟨cm.right⟩ : String) ++ "'")]
    else [])
  attrErrs ++ pseudoErrs ++ classIdErrs ++ combErrs

/-- `SelectorUtils.validate_selector_syntax`. -/
def validate_selector_syntax (selector0 : String) (line_num : Nat) : List String :=
  let selector := pyStrip selector0
  let selectors := splitCommaStrip selector
  let dupErrs := if selectors.length > 1 then dupScan selectors line_num else []
  if selectors.length > 1 &&
      selectors.any (fun sel => containsSub sel ":" && ¬ pyEndsWith sel ":") then
    dupErrs ++ [pseudoCommaMsg selector]
  else
    dupErrs ++ selectors.flatMap (fun sel => perSelectorChecks sel line_num)

/-!
## QSSSyntaxChecker

`check_format` keeps all walk state in locals except
`self._selector_buffer`, which is an instance attribute initialized once
in `__init__` and therefore carried over between `check_format` calls on
the same checker; the model threads it in and out explicitly.
-/

structure CheckState where
  in_comment : Bool := false
  in_rule : Bool := false
  in_variables : Bool := false
  open_braces : Nat := 0
  current_selector : String := ""
  last_line_num : Nat := 0
  property_buffer : String := ""
  selector_buffer : List String := []
  errors : List String := []

-- `QSSSyntaxChecker._is_valid_property_name` coincides with the property
-- processor's check and is shared as `is_valid_property_name` above.

/-- `QSSSyntaxChecker._is_property_line`. -/
def isPropertyLine (line : String) : Bool :=
  containsSub line ":" && containsSub line ";" && ¬ pyStartsWith line "@variables"

/-- `^\s*[^/][^{};]*\s*$` from `_is_potential_selector`: a whitespace
prefix, one non-`/` character, then characters other than braces and
semicolons. -/
def potentialShape : List Char → Bool
  | [] => false
  | c :: rest =>
    (¬ c = '/' && rest.all (fun d => ¬ d = '{' && ¬ d = '}' && ¬ d = ';')) ||
    (isPyWs c && potentialShape rest)

/-- `QSSSyntaxChecker._is_potential_selector`. -/
def isPotentialSelector (line : String) : Bool :=
  ¬ is_complete_rule line &&
  ¬ isPropertyLine line &&
  ¬ pyStartsWith line "/*" &&
  ¬ pyStartsWith line "@variables" &&
  ¬ containsSub line "*/" &&
  ¬ (line = "\x7d") &&
  ¬ pyEndsWith line "," &&
  potentialShape line.data

/-- `QSSSyntaxChecker._validate_pending_properties`. -/
def validate_pending_properties (buffer : String) (line_num : Nat) : List String :=
  if ¬ (pyStrip buffer = "") && ¬ pyEndsWith buffer ";" then
    let prop_name :=
      if containsSub buffer ":" then pyStrip ((pySplit1 buffer ":").headD buffer)
      else pyStrip buffer
    [mkErr line_num ("Property missing ';': " ++ pyStrip buffer)] ++
      (if ¬ is_valid_property_name prop_name then
        [mkErr line_num ("Invalid property name: '" ++ prop_name ++ "'")]
       else [])
  else []

/-- `QSSSyntaxChecker._validate_selector` (a `selector {` line). -/
def validateSelectorLine (line : String) (line_num : Nat) : List String × String :=
  let selector := pyStrip (pyDropLast line)
  if selector = "" then
    ([mkErr line_num ("Empty selector before '\x7b': " ++ line)], selector)
  else ( validate_selector_syntax selector line_num, selector)

/-- `QSSSyntaxChecker._process_property_line`. -/
def checkerPropertyLine (line : String) (buffer0 : String) (line_num : Nat) :
    String × List String :=
  let errs1 :=
    if containsSub line ";" && ¬ (pyStrip buffer0 = "") && ¬ pyEndsWith buffer0 ";" then
      [mkErr (line_num - 1) ("Property missing ';': " ++ pyStrip buffer0)]
    else []
  let buffer := if containsSub line ";" && ¬ (pyStrip buffer0 = "") then "" else buffer0
  if containsSub line ";" then
    let full_line := if ¬ (buffer = "") then pyStrip (buffer ++ " " ++ line) else line
    let parts := pySplitOn full_line ";"
    let errs2 := parts.dropLast.flatMap (fun part0 =>
      let part := pyStrip part0
      if ¬ (part = "") then
        if ¬ containsSub part ":" || pyEndsWith (pyStrip part) ":" then
          [mkErr line_num ("Malformed property: " ++ pyStrip part)]
        else
          let prop_name := pyStrip ((pySplit1 part ":").headD part)
          if ¬ is_valid_property_name prop_name then
            [mkErr line_num ("Invalid property name: '" ++ prop_name ++ "'")]
          else []
      else [])
    let lastPart := parts.getLastD ""
    (if ¬ (pyStrip lastPart = "") then pyStrip lastPart else "", errs1 ++ errs2)
  else (pyStrip (buffer ++ " " ++ line), errs1)

/-- `QSSSyntaxChecker._validate_complete_rule`. -/
def validateCompleteRule (line : String) (line_num : Nat) : List String :=
  match crGroups line.data with
  | none => [mkErr line_num ("Malformed rule: " ++ line)]
  | some (selG, propG) =>
    let selector := pyStrip (⟨selG⟩ : String)
    let errs1 :=
      if selector = "" then [mkErr line_num ("Empty selector in rule: " ++ line)]
      else validate_selector_syntax selector line_num
    let properties : String := ⟨propG⟩
    let errs2 :=
      if ¬ (pyStrip properties = "") then
        let prop_parts := pySplitOn properties ";"
        (prop_parts.dropLast.flatMap (fun part0 =>
          let part := pyStrip part0
          if ¬ (part = "") then
            if ¬ containsSub part ":" || pyEndsWith part ":" then
              [mkErr line_num ("Malformed property: " ++ part)]
            else if pyStrip ((pySplit1 part ":").getLastD "") = "" then
              [mkErr line_num ("Property missing value: " ++ part)]
            else
              let prop_name := pyStrip ((pySplit1 part ":").headD part)
              if ¬ is_valid_property_name prop_name then
                [mkErr line_num ("Invalid property name: '" ++ prop_name ++ "'")]
              else []
          else [])) ++
        (let last_part := pyStrip (prop_parts.getLastD "")
         if ¬ (last_part = "") && ¬ pyEndsWith last_part ";" then
           [mkErr line_num ("Property missing ';': " ++ last_part)] ++
             (if containsSub last_part ":" && ¬ pyEndsWith last_part ":" then
               let prop_name := pyStrip ((pySplit1 last_part ":").headD last_part)
               if ¬ is_valid_property_name prop_name then
                 [mkErr line_num ("Invalid property name: '" ++ prop_name ++ "'")]
               else []
              else [])
         else [])
      else []
    errs1 ++ errs2

/-- The `in_comment` branch of the walk. -/
def checkLineComment (st : CheckState) (line : String) : CheckState :=
  if containsSub line "*/" then { st with in_comment := false } else st

/-- The `in_variables` branch of the walk. -/
def checkLineVariables (st : CheckState) (line : String) : CheckState :=
  if line = "\x7d" then
    let ob := st.open_braces - 1
    { st with open_braces := ob, in_variables := ob > 0 }
  else { st with property_buffer := pyStrip (st.property_buffer ++ " " ++ line) }

/-- The `in_rule` branch of the walk. -/
def checkLineInRule (st : CheckState) (line_num : Nat) (line : String) : CheckState :=
  if line = "\x7d" then
    if st.open_braces = 0 then
      { st with errors := st.errors ++
          [mkErr line_num ("Closing brace '\x7d' without matching '\x7b': " ++ line)] }
    else
      let errs := validate_pending_properties st.property_buffer (line_num - 1)
      let ob := st.open_braces - 1
      { st with errors := st.errors ++ errs, property_buffer := "",
                open_braces := ob, in_rule := ob > 0,
                current_selector := if ob > 0 then st.current_selector else "" }
  else if pyEndsWith line "\x7b" then
    if pyStartsWith line "@variables" then
      { st with errors := st.errors ++
          [mkErr line_num ("Nested @variables block: " ++ line)] }
    else
      let errs1 := validate_pending_properties st.property_buffer (line_num - 1)
      let vs := validateSelectorLine line line_num
      { st with errors := st.errors ++ errs1 ++ vs.1, property_buffer := "",
                current_selector := vs.2, open_braces := st.open_braces + 1,
                in_rule := true, last_line_num := line_num }
  else if pyStartsWith line "@variables" then
    { st with errors := st.errors ++
        [mkErr line_num ("Nested @variables block: " ++ line)] }
  else
    let r := checkerPropertyLine line st.property_buffer line_num
    { st with property_buffer := r.1, errors := st.errors ++ r.2,
              last_line_num := line_num }

/-- The top-level (not inside anything) branch of the walk. -/
def checkLineTop (st : CheckState) (line_num : Nat) (line : String) : CheckState :=
  if line = "@variables \x7b" then
    let errs :=
      if st.open_braces > 0 then [mkErr line_num ("Nested @variables block: " ++ line)]
      else []
    { st with errors := st.errors ++ errs, open_braces := st.open_braces + 1,
              in_variables := true, last_line_num := line_num }
  else if pyEndsWith line "\x7b" then
    let vs := validateSelectorLine line line_num
    let combined :=
      if ¬ st.selector_buffer.isEmpty then
        let selector := String.intercalate ", " (st.selector_buffer ++ [vs.2])
        (vs.1 ++ validate_selector_syntax selector line_num, selector)
      else vs
    { st with errors := st.errors ++ combined.1, current_selector := combined.2,
              open_braces := st.open_braces + 1, in_rule := true,
              last_line_num := line_num, selector_buffer := [] }
  else if pyEndsWith line "," then
    let selector := pyStrip (pyDropLast line)
    { st with
        selector_buffer :=
          if ¬ (selector = "") then st.selector_buffer ++ [selector]
          else st.selector_buffer,
        last_line_num := line_num }
  else if isPropertyLine line then
    { st with errors := st.errors ++ [mkErr line_num ("Property outside block: " ++ line)] }
  else if line = "\x7d" then
    { st with errors := st.errors ++
        [mkErr line_num ("Closing brace '\x7d' without matching '\x7b': " ++ line)] }
  else if isPotentialSelector line && st.selector_buffer.isEmpty then
    { st with errors := st.errors ++
        [mkErr line_num ("Selector without opening brace '\x7b': " ++ line)] }
  else st

/-- One line of `QSSSyntaxChecker.check_format`'s walk. -/
def checkLine (st : CheckState) (line_num : Nat) (line0 : String) : CheckState :=
  let line := pyStrip line0
  if line = "" then st
  else if pyStartsWith line "/*" && ¬ st.in_comment then
    { st with in_comment := true }
  else if st.in_comment then checkLineComment st line
  else if is_complete_rule line then
    { st with errors := st.errors ++ validateCompleteRule line line_num,
              selector_buffer := [] }
  else if st.in_variables then checkLineVariables st line
  else if st.in_rule then checkLineInRule st line_num line
  else checkLineTop st line_num line

/-- `QSSSyntaxChecker._finalize_validation`. -/
def finalizeValidation (open_braces : Nat) (current_selector : String)
    (buffer : String) (last_line_num : Nat) : List String :=
  (if open_braces > 0 && ¬ (current_selector = "") then
    [mkErr last_line_num ("Unclosed brace '\x7b' for selector: " ++ current_selector)]
   else []) ++ validate_pending_properties buffer last_line_num

/-- `QSSSyntaxChecker.check_format` on a checker whose persistent
`_selector_buffer` holds `selBuf`: returns the diagnostics and the
buffer left for the next call. -/
def check_format (selBuf : List String) (text : String) : List String × List String :=
  let lines := pySplitlines text
  let init : CheckState := { selector_buffer := selBuf }
  let st := (lines.foldl (fun (acc : CheckState × Nat) line =>
    (checkLine acc.1 acc.2 line, acc.2 + 1)) (init, 1)).1
  (st.errors ++
    finalizeValidation st.open_braces st.current_selector st.property_buffer
      st.last_line_num,
   st.selector_buffer)

/-- The number of table keys not yet visited: the measure that bounds the
nesting depth of `replace_var`'s recursion. -/
def keysLeft (vars : List (String × String)) (visited : List String) : Nat :=
  ((vars.map Prod.fst).filter (fun k => !(visited.contains k))).length

/-- The store invariant: at most one stored rule per selector string. -/
def StoreInv (rules : List QSSRule) : Prop :=
  (rules.map QSSRule.selector).Nodup

/-- The two admissible diagnostic shapes of the format checker. -/
def GoodDiag (e : String) : Prop :=
  (∃ n rest, e = mkErr n rest) ∨ (∃ sel, e = pseudoCommaMsg sel)

set_option maxHeartbeats 2000000

/-!
## Supporting lemmas
-/

theorem length_dropWhile_le (p : Char → Bool) :
    ∀ l : List Char, (l.dropWhile p).length ≤ l.length := by
  intro l
  induction l with
  | nil => simp [List.dropWhile]
  | cons c rest ih =>
    simp only [List.dropWhile]
    split
    · exact Nat.le_succ_of_le ih
    · simp

theorem matchVarTail_length {rest : List Char} {n : String} {t : List Char}
    (h : matchVarTail rest = some (n, t)) : t.length < rest.length := by
  unfold matchVarTail at h
  split at h
  · exact absurd h (by simp)
  · split at h
    · next tail hdrop =>
        simp only [Option.some.injEq, Prod.mk.injEq] at h
        obtain ⟨-, rfl⟩ := h
        have h1 : (rest.dropWhile isWordOrDash).length ≤ rest.length :=
          length_dropWhile_le isWordOrDash rest
        rw [hdrop] at h1
        simp only [List.length_cons] at h1
        omega
    · exact absurd h (by simp)

theorem matchVarAt_length {l : List Char} {n : String} {t : List Char}
    (h : matchVarAt l = some (n, t)) : t.length < l.length := by
  match l with
  | [] | [_] | [_, _] | [_, _, _] | [_, _, _, _] | [_, _, _, _, _] =>
    simp [matchVarAt] at h
  | c1 :: c2 :: c3 :: c4 :: c5 :: c6 :: rest =>
    simp only [matchVarAt] at h
    split at h
    · have := matchVarTail_length h
      simp only [List.length_cons]
      omega
    · exact absurd h (by simp)

theorem findVar_length : ∀ {l pre t : List Char} {n : String},
    findVar l = some (pre, n, t) → t.length < l.length := by
  intro l
  induction l with
  | nil => intro pre t n h; simp [findVar] at h
  | cons c rest ih =>
    intro pre t n h
    simp only [findVar] at h
    cases hm : matchVarAt (c :: rest) with
    | some nt =>
      obtain ⟨name, tail⟩ := nt
      rw [hm] at h
      simp only [Option.some.injEq, Prod.mk.injEq] at h
      obtain ⟨-, -, h3⟩ := h
      subst h3
      exact matchVarAt_length hm
    | none =>
      rw [hm] at h
      cases hf : findVar rest with
      | some pnt =>
        obtain ⟨pre', name', tail'⟩ := pnt
        rw [hf] at h
        simp only [Option.some.injEq, Prod.mk.injEq] at h
        obtain ⟨-, -, h3⟩ := h
        subst h3
        have := ih hf
        simp only [List.length_cons]
        omega
      | none =>
        rw [hf] at h
        exact absurd h (by simp)

theorem findAllVarsGas_nil (g : Nat) : findAllVarsGas g [] = [] := by
  cases g <;> rfl

/-- Extra gas beyond the input length does not change the scan, so the gas
parameter is a faithful rendering of the unbounded regex scan. -/
theorem findAllVarsGas_eq : ∀ (g₁ g₂ : Nat) (s : List Char),
    s.length ≤ g₁ → s.length ≤ g₂ → findAllVarsGas g₁ s = findAllVarsGas g₂ s := by
  intro g₁
  induction g₁ using Nat.strong_induction_on with
  | _ g₁ ih =>
    intro g₂ s h₁ h₂
    cases s with
    | nil => rw [findAllVarsGas_nil, findAllVarsGas_nil]
    | cons c rest =>
      simp only [List.length_cons] at h₁ h₂
      obtain ⟨g₁', rfl⟩ : ∃ k, g₁ = k + 1 := ⟨g₁ - 1, by omega⟩
      obtain ⟨g₂', rfl⟩ : ∃ k, g₂ = k + 1 := ⟨g₂ - 1, by omega⟩
      simp only [findAllVarsGas]
      cases hm : matchVarAt (c :: rest) with
      | some nt =>
        obtain ⟨name, tail⟩ := nt
        have hlt := matchVarAt_length hm
        simp only [List.length_cons] at hlt
        dsimp only
        rw [ih g₁' (Nat.lt_succ_self g₁') g₂' tail (by omega) (by omega)]
      | none =>
        dsimp only
        exact ih g₁' (Nat.lt_succ_self g₁') g₂' rest (by omega) (by omega)

theorem length_filter_mono {α : Type} {p q : α → Bool}
    (himp : ∀ k, q k = true → p k = true) :
    ∀ l : List α, (l.filter q).length ≤ (l.filter p).length := by
  intro l
  induction l with
  | nil => simp
  | cons x xs ih =>
    simp only [List.filter_cons]
    by_cases hq : q x = true
    · rw [if_pos hq, if_pos (himp x hq)]
      simp only [List.length_cons]
      omega
    · rw [if_neg hq]
      by_cases hp : p x = true
      · rw [if_pos hp]
        simp only [List.length_cons]
        omega
      · rw [if_neg hp]
        exact ih

theorem length_filter_strict {α : Type} {p q : α → Bool}
    (himp : ∀ k, q k = true → p k = true) {name : α}
    (hp : p name = true) (hq : q name = false) :
    ∀ l : List α, name ∈ l → (l.filter q).length < (l.filter p).length := by
  intro l
  induction l with
  | nil => simp
  | cons x xs ih =>
    intro hmem
    simp only [List.filter_cons]
    by_cases hx : x = name
    · subst hx
      rw [if_neg (by simp [hq]), if_pos hp]
      simp only [List.length_cons]
      have := length_filter_mono himp xs
      omega
    · have hmem' : name ∈ xs := by
        rcases List.mem_cons.mp hmem with h | h
        · exact absurd h.symm hx
        · exact h
      by_cases hqx : q x = true
      · rw [if_pos hqx, if_pos (himp x hqx)]
        simp only [List.length_cons]
        have := ih hmem'
        omega
      · rw [if_neg hqx]
        by_cases hpx : p x = true
        · rw [if_pos hpx]
          simp only [List.length_cons]
          have := ih hmem'
          omega
        · rw [if_neg hpx]
          exact ih hmem'

theorem keysLeft_le (vars : List (String × String)) (visited : List String) :
    keysLeft vars visited ≤ vars.length := by
  unfold keysLeft
  calc ((vars.map Prod.fst).filter _).length ≤ (vars.map Prod.fst).length :=
        List.length_filter_le _ _
    _ = vars.length := List.length_map _ _

theorem keysLeft_cons_lt {vars : List (String × String)} {visited : List String}
    {name : String} (hmem : name ∈ vars.map Prod.fst) (hnv : ¬ name ∈ visited) :
    keysLeft vars (name :: visited) < keysLeft vars visited := by
  unfold keysLeft
  apply length_filter_strict (p := fun k => !(visited.contains k))
    (q := fun k => !((name :: visited).contains k)) _ _ _ _ hmem
  · intro k hk
    simp only [Bool.not_eq_true', List.contains_cons, Bool.or_eq_false_iff] at hk ⊢
    exact hk.2
  · simp only [Bool.not_eq_true']
    simpa using hnv
  · simp [List.contains_cons]

theorem dictFind_mem_keys {vars : List (String × String)} {name v : String}
    (h : dictFind vars name = some v) : name ∈ vars.map Prod.fst := by
  unfold dictFind at h
  cases hf : vars.find? (fun p => p.1 = name) with
  | none => rw [hf] at h; simp at h
  | some p =>
    rw [hf] at h
    have hmem := List.mem_of_find?_eq_some hf
    have hp : p.1 = name := by
      have := List.find?_some hf
      simpa using this
    exact hp ▸ List.mem_map_of_mem Prod.fst hmem

/-- `scanSub` only calls its nested expander on defined, unvisited names
with the name pushed onto `visited`; two expanders that agree on those
calls give identical scans. -/
theorem scanSub_congr (vars : List (String × String))
    (e₁ e₂ : String → List String → List Char × List String)
    (visited : List String)
    (H : ∀ v name, ¬ name ∈ visited → dictFind vars name = some v →
      e₁ v (name :: visited) = e₂ v (name :: visited)) :
    ∀ (gas : Nat) (s : List Char),
      scanSub vars e₁ visited gas s = scanSub vars e₂ visited gas s := by
  intro gas
  induction gas with
  | zero => intro s; rfl
  | succ gas ih =>
    intro s
    simp only [scanSub]
    cases hf : findVar s with
    | none => rfl
    | some pnt =>
      obtain ⟨pre, name, tail⟩ := pnt
      dsimp only
      by_cases hv : name ∈ visited
      · simp only [hv, if_true, ih tail]
      · simp only [hv, if_false]
        cases hd : dictFind vars name with
        | none => simp only [ih tail]
        | some value =>
          simp only [ih tail, H value name hv hd]

theorem storeFind_none {rules : List QSSRule} {sel : String}
    (h : storeFind rules sel = none) : ∀ r ∈ rules, ¬ r.selector = sel := by
  intro r hr
  have := List.find?_eq_none.mp h r hr
  simpa using this

theorem storeUpdate_selectors (rules : List QSSRule) (sel : String)
    (f : QSSRule → QSSRule) (hf : ∀ r, (f r).selector = r.selector) :
    (storeUpdate rules sel f).map QSSRule.selector = rules.map QSSRule.selector := by
  induction rules with
  | nil => rfl
  | cons r rest ih =>
    simp only [storeUpdate, List.map_cons] at ih ⊢
    by_cases h : r.selector = sel
    · rw [if_pos h, hf, ih]
    · rw [if_neg h, ih]

theorem storeUpdate_inv (rules : List QSSRule) (sel : String)
    (f : QSSRule → QSSRule) (hf : ∀ r, (f r).selector = r.selector)
    (h : StoreInv rules) : StoreInv (storeUpdate rules sel f) := by
  unfold StoreInv
  rw [storeUpdate_selectors _ _ _ hf]
  exact h

theorem storeMerge_inv {rules : List QSSRule} (inc : QSSRule)
    (h : StoreInv rules) : StoreInv (storeMerge rules inc) := by
  unfold storeMerge
  cases hf : storeFind rules inc.selector with
  | some existing =>
    dsimp only
    exact storeUpdate_inv _ _ _ (fun r => rfl) h
  | none =>
    unfold StoreInv at h ⊢
    rw [List.map_append]
    simp only [List.map_cons, List.map_nil]
    rw [List.nodup_append]
    refine ⟨h, List.nodup_singleton _, ?_⟩
    intro a ha hb
    simp only [List.mem_singleton] at hb
    subst hb
    obtain ⟨r, hr, hsel⟩ := List.mem_map.mp ha
    exact storeFind_none hf r hr hsel

theorem applyRule_inv (rules : List QSSRule) (rule : QSSRule)
    (h : StoreInv rules) : StoreInv (applyRule rules rule) := by
  unfold applyRule
  split
  · exact storeMerge_inv _ (storeMerge_inv _ h)
  · exact storeMerge_inv _ h

theorem foldl_rules_const {α : Type} {f : ParserModel → α → ParserModel}
    (hf : ∀ m x, (f m x).state.rules = m.state.rules) :
    ∀ (xs : List α) (m : ParserModel), (xs.foldl f m).state.rules = m.state.rules := by
  intro xs
  induction xs with
  | nil => intro m; rfl
  | cons x xs ih => intro m; rw [List.foldl_cons, ih, hf]

theorem foldl_inv {α : Type} {f : ParserModel → α → ParserModel}
    (hf : ∀ m x, StoreInv m.state.rules → StoreInv (f m x).state.rules) :
    ∀ (xs : List α) (m : ParserModel),
      StoreInv m.state.rules → StoreInv (xs.foldl f m).state.rules := by
  intro xs
  induction xs with
  | nil => intro m h; exact h
  | cons x xs ih => intro m h; exact ih _ (hf m x h)

theorem runPropertyProcessor_rules (m : ParserModel) (l : String) :
    (runPropertyProcessor m l).state.rules = m.state.rules := rfl

theorem handle_rule_inv (m : ParserModel) (r : QSSRule)
    (h : StoreInv m.state.rules) : StoreInv (handle_rule m r).state.rules :=
  applyRule_inv _ _ h

theorem processCompleteRule_inv (line : String) (m : ParserModel)
    (h : StoreInv m.state.rules) : StoreInv (processCompleteRule line m).state.rules := by
  have hfold : ∀ (xs : List String) (m₀ : ParserModel),
      (xs.foldl (fun m part0 =>
        let part := pyStrip part0
        if ¬ (part = "") then runPropertyProcessor m (part ++ ";") else m)
        m₀).state.rules = m₀.state.rules :=
    foldl_rules_const (fun m x => by dsimp only; split <;> rfl)
  unfold processCompleteRule
  cases crGroups line.data with
  | none => exact h
  | some g =>
    obtain ⟨selG, propG⟩ := g
    dsimp only
    split
    · exact h
    · apply foldl_inv (fun m r h => handle_rule_inv m _ h)
      split
      · unfold StoreInv
        rw [hfold]
        exact h
      · exact h

theorem closeRule_inv (m : ParserModel) (h : StoreInv m.state.rules) :
    StoreInv (closeRule m).state.rules := by
  have hfold : ∀ (xs : List String) (m₀ : ParserModel),
      (xs.foldl (fun m prop_line =>
        if ¬ pyEndsWith (pyStrip prop_line) ";" then
          dispatch_error m (mkErr m.state.current_line
            ("Property missing ';': " ++ prop_line))
        else runPropertyProcessor m prop_line) m₀).state.rules = m₀.state.rules :=
    foldl_rules_const (fun m x => by split <;> rfl)
  unfold closeRule
  apply foldl_inv (fun m r h => handle_rule_inv m _ h)
  cases hp : m.state.property_lines with
  | nil => exact h
  | cons a as =>
    dsimp only
    have hx : StoreInv (List.foldl (fun m prop_line =>
        if ¬ pyEndsWith (pyStrip prop_line) ";" then
          dispatch_error m (mkErr m.state.current_line
            ("Property missing ';': " ++ prop_line))
        else runPropertyProcessor m prop_line) m (a :: as).dropLast).state.rules := by
      unfold StoreInv
      rw [hfold]
      exact h
    split
    · split
      · split
        · exact hx
        · exact hx
      · exact hx
    · exact hx

theorem selectorPluginProcess_inv (line : String) (m : ParserModel)
    (h : StoreInv m.state.rules) :
    StoreInv (selectorPluginProcess line m).1.state.rules := by
  unfold selectorPluginProcess
  dsimp only
  repeat' split
  all_goals first
    | exact h
    | exact processCompleteRule_inv _ _ h
    | exact closeRule_inv _ h

theorem variablePluginProcess_rules (line : String) (m : ParserModel) :
    (variablePluginProcess line m).1.state.rules = m.state.rules := by
  unfold variablePluginProcess
  dsimp only
  repeat' split
  all_goals rfl

theorem propertyPluginProcess_rules (line : String) (m : ParserModel) :
    (propertyPluginProcess line m).1.state.rules = m.state.rules := by
  unfold propertyPluginProcess
  dsimp only
  repeat' split
  all_goals rfl

theorem processLine_inv (m : ParserModel) (line : String)
    (h : StoreInv m.state.rules) : StoreInv (processLine m line).state.rules := by
  unfold processLine
  have h1 : StoreInv (variablePluginProcess line m).1.state.rules := by
    rw [variablePluginProcess_rules]; exact h
  have h2 := selectorPluginProcess_inv line (variablePluginProcess line m).1 h1
  have h3 : StoreInv (propertyPluginProcess line
      (selectorPluginProcess line (variablePluginProcess line m).1).1).1.state.rules := by
    rw [propertyPluginProcess_rules]; exact h2
  dsimp only
  split
  · exact h1
  · split
    · exact h2
    · exact h3

theorem parse_store_inv (text : String) : StoreInv (parse text).state.rules := by
  have h0 : StoreInv ({} : ParserModel).state.rules := by
    simp [StoreInv, ParserState.rules]
  have h1 : StoreInv ((pySplitlines text).foldl (fun m line =>
      let m := processLine m line
      { m with state := { m.state with current_line := m.state.current_line + 1 } })
      {}).state.rules :=
    foldl_inv (f := fun m line =>
        let m := processLine m line
        { m with state := { m.state with current_line := m.state.current_line + 1 } })
      (fun m x h => processLine_inv m x h) _ _ h0
  unfold parse
  dsimp only
  repeat' split
  all_goals exact h1

/-- Any two depth budgets strictly above the number of unvisited table
keys compute the same substitution. -/
theorem substDepth_congr (vars : List (String × String)) :
    ∀ (n : Nat) (visited : List String) (f₁ f₂ : Nat) (v : String),
      keysLeft vars visited = n →
      keysLeft vars visited < f₁ → keysLeft vars visited < f₂ →
      substDepth vars f₁ visited v = substDepth vars f₂ visited v := by
  intro n
  induction n using Nat.strong_induction_on with
  | _ n ih =>
    intro visited f₁ f₂ v hn h₁ h₂
    obtain ⟨g₁, rfl⟩ : ∃ k, f₁ = k + 1 := ⟨f₁ - 1, by omega⟩
    obtain ⟨g₂, rfl⟩ : ∃ k, f₂ = k + 1 := ⟨f₂ - 1, by omega⟩
    simp only [substDepth]
    apply scanSub_congr
    intro val name hnv hd
    have hmem := dictFind_mem_keys hd
    have hlt := keysLeft_cons_lt hmem hnv
    exact ih (keysLeft vars (name :: visited)) (by omega)
      (name :: visited) g₁ g₂ val rfl (by omega) (by omega)

/-!
## Diagnostic-format lemmas (claim C8)

Every diagnostic `check_format` can produce is either of the shape
`"Error on line {N}: {rest}"` (`mkErr`) or the one early-exit message for
pseudo-states in a comma group, which begins with `"Error: "` instead.
-/


theorem good_ite_singleton {c : Prop} [Decidable c] {n : Nat} {r e : String}
    (h : e ∈ (if c then [mkErr n r] else [])) : GoodDiag e := by
  split at h
  · simp only [List.mem_singleton] at h
    exact Or.inl ⟨n, r, h⟩
  · simp at h

theorem good_dupScan (selectors : List String) (line_num : Nat) :
    ∀ e ∈ dupScan selectors line_num, GoodDiag e := by
  unfold dupScan
  suffices H : ∀ (xs : List String) (acc : List String × List String),
      (∀ e ∈ acc.2, GoodDiag e) →
      ∀ e ∈ (xs.foldl (fun acc sel =>
        (sel :: acc.1,
         if sel ∈ acc.1 then
           acc.2 ++ [mkErr line_num ("Duplicate selector '" ++ sel ++
             "' in comma-separated list")]
         else acc.2)) acc).2, GoodDiag e by
    exact H selectors ([], []) (by simp)
  intro xs
  induction xs with
  | nil => intro acc hacc e he; exact hacc e he
  | cons x xs ih =>
    intro acc hacc e he
    refine ih _ ?_ e he
    intro e' he'
    dsimp only at he'
    split at he'
    · rcases List.mem_append.mp he' with h | h
      · exact hacc e' h
      · simp only [List.mem_singleton] at h
        exact Or.inl ⟨line_num, _, h⟩
    · exact hacc e' he'

theorem good_perSelectorChecks (sel : String) (line_num : Nat) :
    ∀ e ∈ perSelectorChecks sel line_num, GoodDiag e := by
  intro e he
  unfold perSelectorChecks at he
  dsimp only at he
  rcases List.mem_append.mp he with he | hcomb
  rcases List.mem_append.mp he with he | hcid
  rcases List.mem_append.mp he with hattr | hpse
  · obtain ⟨a, -, ha⟩ := List.mem_flatMap.mp hattr
    rcases List.mem_append.mp ha with h | h
    · exact good_ite_singleton h
    · exact good_ite_singleton h
  · obtain ⟨a, -, ha⟩ := List.mem_flatMap.mp hpse
    split at ha
    · simp only [List.mem_singleton] at ha
      exact Or.inl ⟨line_num, _, ha⟩
    · simp at ha
  · obtain ⟨a, -, ha⟩ := List.mem_flatMap.mp hcid
    exact good_ite_singleton ha
  · obtain ⟨a, -, ha⟩ := List.mem_flatMap.mp hcomb
    exact good_ite_singleton ha

theorem good_validate_selector_syntax (selector : String) (line_num : Nat) :
    ∀ e ∈ validate_selector_syntax selector line_num, GoodDiag e := by
  intro e he
  unfold validate_selector_syntax at he
  dsimp only at he
  have hdup : ∀ e ∈ (if (splitCommaStrip (pyStrip selector)).length > 1 then
      dupScan (splitCommaStrip (pyStrip selector)) line_num else []), GoodDiag e := by
    intro e' he'
    split at he'
    · exact good_dupScan _ _ e' he'
    · simp at he'
  split at he
  · rcases List.mem_append.mp he with h | h
    · exact hdup e h
    · simp only [List.mem_singleton] at h
      exact Or.inr ⟨_, h⟩
  · rcases List.mem_append.mp he with h | h
    · exact hdup e h
    · obtain ⟨a, -, ha⟩ := List.mem_flatMap.mp h
      exact good_perSelectorChecks _ _ e ha

theorem good_validate_pending_properties (buffer : String) (line_num : Nat) :
    ∀ e ∈ validate_pending_properties buffer line_num, GoodDiag e := by
  intro e he
  unfold validate_pending_properties at he
  dsimp only at he
  split at he
  · rcases List.mem_append.mp he with h | h
    · simp only [List.mem_singleton] at h
      exact Or.inl ⟨line_num, _, h⟩
    · exact good_ite_singleton h
  · simp at he

theorem good_validateSelectorLine (line : String) (line_num : Nat) :
    ∀ e ∈ (validateSelectorLine line line_num).1, GoodDiag e := by
  intro e he
  unfold validateSelectorLine at he
  dsimp only at he
  split at he
  · simp only [List.mem_singleton] at he
    exact Or.inl ⟨line_num, _, he⟩
  · exact good_validate_selector_syntax _ _ e he

theorem good_checkerPropertyLine (line buffer : String) (line_num : Nat) :
    ∀ e ∈ (checkerPropertyLine line buffer line_num).2, GoodDiag e := by
  intro e he
  unfold checkerPropertyLine at he
  dsimp only at he
  have herr1 : ∀ e ∈ (if containsSub line ";" && ¬ (pyStrip buffer = "") &&
      ¬ pyEndsWith buffer ";" then
        [mkErr (line_num - 1) ("Property missing ';': " ++ pyStrip buffer)]
      else []), GoodDiag e := fun e' he' => good_ite_singleton he'
  split at he
  · rcases List.mem_append.mp he with h | h
    · exact herr1 e h
    · obtain ⟨a, -, ha⟩ := List.mem_flatMap.mp h
      split at ha
      · split at ha
        · simp only [List.mem_singleton] at ha
          exact Or.inl ⟨line_num, _, ha⟩
        · exact good_ite_singleton ha
      · simp at ha
  · exact herr1 e he

theorem good_validateCompleteRule (line : String) (line_num : Nat) :
    ∀ e ∈ validateCompleteRule line line_num, GoodDiag e := by
  intro e he
  unfold validateCompleteRule at he
  cases hg : crGroups line.data with
  | none =>
    rw [hg] at he
    simp only [List.mem_singleton] at he
    exact Or.inl ⟨line_num, _, he⟩
  | some g =>
    obtain ⟨selG, propG⟩ := g
    rw [hg] at he
    dsimp only at he
    rcases List.mem_append.mp he with h1 | h2
    · split at h1
      · simp only [List.mem_singleton] at h1
        exact Or.inl ⟨line_num, _, h1⟩
      · exact good_validate_selector_syntax _ _ e h1
    · split at h2
      · rcases List.mem_append.mp h2 with h | h
        · obtain ⟨a, -, ha⟩ := List.mem_flatMap.mp h
          split at ha
          · split at ha
            · simp only [List.mem_singleton] at ha
              exact Or.inl ⟨line_num, _, ha⟩
            · split at ha
              · simp only [List.mem_singleton] at ha
                exact Or.inl ⟨line_num, _, ha⟩
              · exact good_ite_singleton ha
          · simp at ha
        · split at h
          · rcases List.mem_append.mp h with h' | h'
            · simp only [List.mem_singleton] at h'
              exact Or.inl ⟨line_num, _, h'⟩
            · split at h'
              · exact good_ite_singleton h'
              · simp at h'
          · simp at h
      · simp at h2

theorem good_finalizeValidation (open_braces : Nat) (current_selector : String)
    (buffer : String) (last_line_num : Nat) :
    ∀ e ∈ finalizeValidation open_braces current_selector buffer last_line_num,
      GoodDiag e := by
  intro e he
  unfold finalizeValidation at he
  rcases List.mem_append.mp he with h | h
  · exact good_ite_singleton h
  · exact good_validate_pending_properties _ _ e h

theorem good_checkLineComment (st : CheckState) (line : String) :
    ∀ e ∈ (checkLineComment st line).errors, e ∈ st.errors := by
  intro e he
  unfold checkLineComment at he
  split at he <;> exact he

theorem good_checkLineVariables (st : CheckState) (line : String) :
    ∀ e ∈ (checkLineVariables st line).errors, e ∈ st.errors := by
  intro e he
  unfold checkLineVariables at he
  split at he <;> exact he

theorem good_checkLineInRule (st : CheckState) (line_num : Nat) (line : String) :
    ∀ e ∈ (checkLineInRule st line_num line).errors, e ∈ st.errors ∨ GoodDiag e := by
  intro e he
  unfold checkLineInRule at he
  repeat' split at he
  all_goals
    rcases List.mem_append.mp he with h | h
  all_goals
    first
    | exact Or.inl h
    | (simp only [List.mem_singleton] at h
       exact Or.inr (Or.inl ⟨line_num, _, h⟩))
    | exact Or.inr (good_validate_pending_properties _ _ e h)
    | exact Or.inr (good_checkerPropertyLine _ _ _ e h)
    | exact Or.inr (good_validateSelectorLine _ _ e h)
    | (rcases List.mem_append.mp h with h' | h'
       · exact Or.inl h'
       · exact Or.inr (good_validate_pending_properties _ _ e h'))
    | exact absurd h (List.not_mem_nil e)

theorem good_checkLineTop (st : CheckState) (line_num : Nat) (line : String) :
    ∀ e ∈ (checkLineTop st line_num line).errors, e ∈ st.errors ∨ GoodDiag e := by
  intro e he
  unfold checkLineTop at he
  repeat' split at he
  all_goals
    first
    | exact Or.inl he
    | (rcases List.mem_append.mp he with h | h
       · exact Or.inl h
       · first
         | (simp only [List.mem_singleton] at h
            exact Or.inr (Or.inl ⟨line_num, _, h⟩))
         | exact Or.inr (good_validateSelectorLine _ _ e h)
         | (rcases List.mem_append.mp h with h' | h'
            · exact Or.inr (good_validateSelectorLine _ _ e h')
            · exact Or.inr ( good_validate_selector_syntax _ _ e h'))
         | exact absurd h (List.not_mem_nil e))

theorem good_checkLine (st : CheckState) (line_num : Nat) (line : String) :
    ∀ e ∈ (checkLine st line_num line).errors, e ∈ st.errors ∨ GoodDiag e := by
  intro e he
  unfold checkLine at he
  dsimp only at he
  repeat' split at he
  all_goals
    first
    | exact Or.inl he
    | exact Or.inl (good_checkLineComment _ _ e he)
    | exact Or.inl (good_checkLineVariables _ _ e he)
    | exact good_checkLineInRule _ _ _ e he
    | exact good_checkLineTop _ _ _ e he
    | (rcases List.mem_append.mp he with h | h
       · exact Or.inl h
       · exact Or.inr (good_validateCompleteRule _ _ e h))

theorem good_check_format (selBuf : List String) (text : String) :
    ∀ e ∈ (check_format selBuf text).1, GoodDiag e := by
  intro e he
  unfold check_format at he
  dsimp only at he
  rcases List.mem_append.mp he with h | h
  · suffices H : ∀ (xs : List String) (acc : CheckState × Nat),
        (∀ e ∈ acc.1.errors, GoodDiag e) →
        ∀ e ∈ (xs.foldl (fun acc line =>
          (checkLine acc.1 acc.2 line, acc.2 + 1)) acc).1.errors, GoodDiag e by
      exact H (pySplitlines text) ({ selector_buffer := selBuf }, 1) (by simp) e h
    intro xs
    induction xs with
    | nil => intro acc hacc e' he'; exact hacc e' he'
    | cons x xs ih =>
      intro acc hacc e' he'
      refine ih _ ?_ e' he'
      intro e'' he''
      rcases good_checkLine acc.1 acc.2 x e'' he'' with h' | h'
      · exact hacc e'' h'
      · exact h'
  · exact good_finalizeValidation _ _ _ _ e h

/-!
## Claim theorems
-/

/-- C1 (counterexample): parsing `#a:hover { c: 1; }` stores exactly one
rule, with selector `#a:hover`; no rule with the pseudo-stripped selector
`#a` exists, contradicting the claim that the store holds two rules
`#a:hover` and `#a`. -/
theorem C1_counterexample :
    (parse "#a:hover \x7b c: 1; \x7d").state.rules.map QSSRule.selector = ["#a:hover"] ∧
    ¬ ∃ r ∈ (parse "#a:hover \x7b c: 1; \x7d").state.rules, r.selector = "#a" := by
  constructor
  · decide
  · decide

/-- C1 (amended): parsing `#a:hover { c: 1; }` stores exactly one rule,
with selector `#a:hover`, containing the property `c: 1`.  The derived
base rule strips only `::` pseudo-elements
(`clone_without_pseudo_elements` splits on `"::"`), so for a
pseudo-state-only selector it has the same selector string and merges
back into the original store entry. -/
theorem C1_amended :
    (parse "#a:hover \x7b c: 1; \x7d").state.rules =
      [{ selector := "#a:hover", properties := [⟨"c", "1"⟩],
         original := "#a:hover \x7b\n    c: 1;\n\x7d\n" }] := by decide

/-- C2 (counterexample): the single-line text `X { c: 1; } X { c: 2; }`
matches no plugin (two brace pairs defeat `COMPLETE_RULE_PATTERN`, the
line neither ends in `{`/`,` nor equals `}`, and no rule is open), so the
store stays empty — there is no rule `X` at all, contradicting the
claimed single `X` rule with `c = 2`. -/
theorem C2_counterexample :
    (parse "X \x7b c: 1; \x7d X \x7b c: 2; \x7d").state.rules = [] ∧
    ¬ ∃ r ∈ (parse "X \x7b c: 1; \x7d X \x7b c: 2; \x7d").state.rules, r.selector = "X" := by
  constructor
  · decide
  · decide

/-- C2 (amended): with each rule on its own line,
`X { c: 1; }\nX { c: 2; }`, the store holds exactly one rule with
selector `X` whose property `c` has the value `2` (last-write-wins merge
by selector string). -/
theorem C2_amended :
    ((parse "X \x7b c: 1; \x7d\nX \x7b c: 2; \x7d").state.rules.map
      (fun r => (r.selector, r.properties.map (fun p => (p.name, p.value))))) =
    [("X", [("c", "2")])] := by decide

/-- C3: after any `parse()` call on any input text the rule store contains
at most one stored rule per distinct selector string — the selector list
of the store is duplicate-free.  Every insertion path goes through
`applyRule` (merge preserves selectors; insert requires the selector to be
absent), which preserves the invariant (`applyRule_inv`). -/
theorem C3_store_unique_selectors (text : String) :
    ((parse text).state.rules.map QSSRule.selector).Nodup :=
  parse_store_inv text

/-- C4: with the store built from `#myButton {color:red;}` and
`QPushButton{background:blue;}` and the identity
(objectName `myButton`, className `QPushButton`), `get_styles_for` with
default arguments returns only the `#myButton` block, and with
`include_class_if_object_name` set it returns both blocks. -/
theorem C4_get_styles_for :
    parser_get_styles_for
        (parse "#myButton \x7bcolor:red;\x7d\nQPushButton\x7bbackground:blue;\x7d")
        ⟨"myButton", "QPushButton"⟩ =
      "#myButton \x7b\n    color: red;\n\x7d" ∧
    parser_get_styles_for
        (parse "#myButton \x7bcolor:red;\x7d\nQPushButton\x7bbackground:blue;\x7d")
        ⟨"myButton", "QPushButton"⟩ none none true =
      "#myButton \x7b\n    color: red;\n\x7d\nQPushButton \x7b\n    background: blue;\n\x7d" := by
  constructor
  · decide
  · decide

/-- C5 (round-trip failure): the single-line text `@variables { x: y; }`
is consumed by the complete-rule fast path (`VariablePlugin` only claims
the exact line `@variables {`), storing a rule with selector
`@variables`; its `to_string()` rendering starts with the line
`@variables {`, which re-parsing treats as a variables block, so the
second store is empty and differs from the first. -/
theorem C5_roundtrip_failure :
    ((parse "@variables \x7b x: y; \x7d").state.rules.map
      (fun r => (r.selector, r.properties.map (fun p => (p.name, p.value))))) =
      [("@variables", [("x", "y")])] ∧
    to_string (parse "@variables \x7b x: y; \x7d") = "@variables \x7b\n    x: y;\n\x7d\n" ∧
    (parse (to_string (parse "@variables \x7b x: y; \x7d"))).state.rules = [] := by
  refine ⟨by decide, by decide, by decide⟩

/-- C6: parsing `X {\n color: blue` (end of input inside an open rule)
stores zero rules and emits exactly one `invalid_rule_skipped` event, but
the payload is `"X {\n\n"`: `state.buffer` is never written during plugin
dispatch (property text goes to `state.property_lines`, which the
end-of-input path ignores), so the payload does not contain
`color: blue`, contradicting the claim and the repository's own test
`test_event_invalid_rule_skipped`. -/
theorem C6_invalid_rule_payload :
    (parse "X \x7b\n color: blue").state.rules = [] ∧
    (parse "X \x7b\n color: blue").invalid_rules = ["X \x7b\n\n"] ∧
    containsSub "X \x7b\n\n" "color: blue" = false := by
  refine ⟨by decide, by decide, by decide⟩

/-- C7 (counterexample): with the table `--a ↦ var(--b)` (and `--b`
undefined), resolving `var(--a)` leaves `var(--b)` unresolved in the
result, no circular reference is detected, and yet the returned error is
`none`: the undefined-variable scan runs over the original input (where
`--a` is defined), not over the substitution result. -/
theorem C7_counterexample :
    resolve_variable [("--a", "var(--b)")] "var(--a)" = ("var(--b)", none) ∧
    findAllVars "var(--b)".data = ["--b"] ∧
    dictFind [("--a", "var(--b)")] "--b" = none := by
  refine ⟨by decide, by decide, by decide⟩

/-- C7 (amended): whenever no circular reference is detected and at least
one `var(--name)` occurrence in the *input* value names a variable absent
from the table, `resolve_variable` returns one batched message listing
every such name, in input order with duplicates kept. -/
theorem C7_amended (vars : List (String × String)) (value : String)
    (hcirc : (substDepth vars (vars.length + 1) [] value).2 = [])
    (hund : (findAllVars value.data).filter (fun n => dictFind vars n = none) ≠ []) :
    (resolve_variable vars value).2 =
      some ("Undefined variables: " ++ String.intercalate ", "
        ((findAllVars value.data).filter (fun n => dictFind vars n = none))) := by
  unfold resolve_variable
  dsimp only
  rw [hcirc]
  cases hu : (findAllVars value.data).filter (fun n => dictFind vars n = none) with
  | nil => exact absurd hu hund
  | cons e es => rfl

/-- C7 (witness): the amended theorem at the empty table and input
`var(--x)`. -/
theorem C7_amended_witness :
    (resolve_variable [] "var(--x)").2 =
      some ("Undefined variables: " ++ String.intercalate ", "
        ((findAllVars "var(--x)".data).filter (fun n => dictFind [] n = none))) :=
  C7_amended [] "var(--x)" (by decide) (by decide)

/-- C8 (counterexample): validating `#a:hover, B { c: 1; }` yields one
diagnostic — the pseudo-states-in-comma-group message — and it does not
begin with `Error on line `; it begins with `Error: `.  This contradicts
the claim that every diagnostic matches
`Error on line {N}: {description}: {snippet}`. -/
theorem C8_counterexample :
    (check_format [] "#a:hover, B \x7b c: 1; \x7d").1 = [pseudoCommaMsg "#a:hover, B"] ∧
    pyStartsWith (pseudoCommaMsg "#a:hover, B") "Error on line " = false := by
  refine ⟨by decide, by decide⟩

/-- C8 (amended): every diagnostic produced by `check_format` — from any
persistent fragment-buffer state — either has the exact shape
`Error on line {N}: {rest}` or is the single pseudo-states-in-comma-group
diagnostic contributed by `validate_selector_syntax`, which begins with
`Error: ` and carries no line number. -/
theorem C8_amended (selBuf : List String) (text : String) :
    ∀ e ∈ (check_format selBuf text).1, GoodDiag e :=
  good_check_format selBuf text

/-- C8 (witness): the amended theorem applied to the missing-semicolon
example; the reported diagnostic is `mkErr`-shaped. -/
theorem C8_amended_witness :
    GoodDiag "Error on line 2: Property missing ';': color: blue" :=
  C8_amended [] "QPushButton \x7b\n color: blue\n\x7d"
    "Error on line 2: Property missing ';': color: blue" (by decide)

/-- C9 (counterexample): `check_format` is not a pure function of its
text.  After validating `"B,"` (which leaves the fragment `B` in the
checker's persistent `_selector_buffer`), two successive `check_format`
calls with the same text `"B {\nc: 1;\n}"` return different lists: the
first reports a duplicate selector `B, B`, the second reports nothing. -/
theorem C9_counterexample :
    ¬ ((check_format (check_format [] "B,").2 "B \x7b\nc: 1;\n\x7d").1 =
       (check_format (check_format (check_format [] "B,").2 "B \x7b\nc: 1;\n\x7d").2
         "B \x7b\nc: 1;\n\x7d").1) := by decide

/-- C9 (amended): the diagnostics depend only on the text and the
checker's leftover selector-fragment buffer (`check_format` takes no
other state, and `parse()` never touches the checker).  In particular a
call whose text leaves no pending fragment resets the checker, so any
subsequent call behaves exactly as on a fresh instance. -/
theorem C9_amended (t₁ t₂ : String) (h : (check_format [] t₁).2 = []) :
    check_format (check_format [] t₁).2 t₂ = check_format [] t₂ := by
  rw [h]

/-- C9 (witness): the amended theorem applied with
`t₁ = t₂ = "B {\nc: 1;\n}"`, whose validation leaves no fragment. -/
theorem C9_amended_witness :
    check_format (check_format [] "B \x7b\nc: 1;\n\x7d").2 "B \x7b\nc: 1;\n\x7d" =
      check_format [] "B \x7b\nc: 1;\n\x7d" :=
  C9_amended "B \x7b\nc: 1;\n\x7d" "B \x7b\nc: 1;\n\x7d" (by decide)

/-- C10: for every variable table and every value — cyclic tables
included — the substitution is total and the per-call visited set bounds
the nesting depth by the number of table entries: any depth budget of at
least `vars.length + 1` computes the same result as the budget
`resolve_variable` uses, and the resolved value is exactly that fixed
computation. -/
theorem C10_resolution_terminates (vars : List (String × String))
    (value : String) (fuel : Nat) (h : vars.length + 1 ≤ fuel) :
    substDepth vars fuel [] value = substDepth vars (vars.length + 1) [] value ∧
    (resolve_variable vars value).1 =
      (⟨(substDepth vars fuel [] value).1⟩ : String) := by
  have hb : keysLeft vars [] < vars.length + 1 :=
    Nat.lt_succ_of_le (keysLeft_le vars [])
  have heq := substDepth_congr vars (keysLeft vars []) [] fuel (vars.length + 1)
    value rfl (by omega) hb
  refine ⟨heq, ?_⟩
  rw [heq]
  rfl

/-- C10 (witness): on the cyclic table
`--a: var(--b); --b: var(--a)` the budgets `7` and `3` agree, and the
resolver returns the pair `("var(--a)", circular-reference error)`. -/
theorem C10_witness :
    substDepth [("--a", "var(--b)"), ("--b", "var(--a)")] 7 [] "var(--a)" =
      substDepth [("--a", "var(--b)"), ("--b", "var(--a)")] 3 [] "var(--a)" ∧
    (resolve_variable [("--a", "var(--b)"), ("--b", "var(--a)")] "var(--a)").1 =
      (⟨(substDepth [("--a", "var(--b)"), ("--b", "var(--a)")] 7 [] "var(--a)").1⟩ : String) :=
  C10_resolution_terminates [("--a", "var(--b)"), ("--b", "var(--a)")]
    "var(--a)" 7 (by decide)

end QSS
